import Mathlib

/-!
Verification of the docker-tracer match engine against its specification.

This file shallowly embeds the Python modules
`app/services/dockersdk/command_utils.py`, `app/services/dockersdk/utils.py`,
`app/services/sbom_generator/dockerfile_analyzer.py`,
`app/services/dockersdk/match_analyzer.py` and the defaults of `app/config.py`
into Lean, and proves or refutes the frozen claims about them.

Modelling conventions:
* Python `float` is modelled by `ℚ` (exact arithmetic).
* Python `str` is Lean `String`; character-level scanning is done on `List Char`.
* Python whitespace and case mapping are modelled for ASCII text.
* Python `dict` is modelled by an ordered association list (insertion order).
* A Python function that can raise is modelled with `Option`/`Except`.
-/

namespace DockerTracer

/-! ### Python string primitives (ASCII model) -/

/-- The whitespace characters of Python's `str.split()` / `str.strip()`
(ASCII model: space, tab, newline, carriage return, form feed, vertical tab). -/
def pyWs : List Char := [' ', '\t', '\n', '\x0d', '\x0c', '\x0b']

def isPyWs (c : Char) : Bool := pyWs.contains c

/-- `str.strip()` on a character list. -/
def stripL (s : List Char) : List Char :=
  ((s.dropWhile isPyWs).reverse.dropWhile isPyWs).reverse

/-- `str.strip()`. -/
def pyStrip (s : String) : String := ⟨stripL s.data⟩

/-- Accumulator pass behind `str.split()`: `cur` is the current token,
reversed. -/
def splitWsAux : List Char → List Char → List (List Char)
  | [], cur => if cur = [] then [] else [cur.reverse]
  | c :: rest, cur =>
    if isPyWs c then
      if cur = [] then splitWsAux rest []
      else cur.reverse :: splitWsAux rest []
    else splitWsAux rest (c :: cur)

/-- `str.split()` (no argument): split on whitespace runs, no empty parts. -/
def splitWsL (l : List Char) : List (List Char) := splitWsAux l []

/-- `str.split()`. -/
def pySplitWs (s : String) : List String := (splitWsL s.data).map String.mk

/-- `sep.join(xs)` for a one-character separator, written out recursively. -/
def pyJoin (sep : String) : List String → String
  | [] => ""
  | [x] => x
  | x :: y :: rest => x ++ sep ++ pyJoin sep (y :: rest)

/-- `str.lower()` (ASCII model). -/
def pyLower (s : String) : String := ⟨s.data.map Char.toLower⟩

/-- `str.upper()` (ASCII model). -/
def pyUpper (s : String) : String := ⟨s.data.map Char.toUpper⟩

/-- Substring containment, `needle in haystack` on Python strings. -/
def containsSubL (haystack needle : List Char) : Bool :=
  match haystack with
  | [] => needle = []
  | _ :: rest => needle.isPrefixOf haystack || containsSubL rest needle

def pyContains (haystack needle : String) : Bool :=
  containsSubL haystack.data needle.data

/-- `c in s` for a single character. -/
def pyContainsChar (s : String) (c : Char) : Bool := s.data.contains c

/-- `s.split(sep)` for a one-character separator (all occurrences, keeps
empty parts, like Python `str.split('/')`). -/
def splitCharL (sep : Char) : List Char → List (List Char)
  | [] => [[]]
  | c :: rest =>
    let r := splitCharL sep rest
    if c = sep then [] :: r
    else (c :: r.headD []) :: r.tail

def pySplitChar (s : String) (sep : Char) : List String :=
  (splitCharL sep s.data).map String.mk

/-- `s.split(sep, 1)`: split at the first occurrence only. -/
def splitOnceL (sep : Char) (s : List Char) : List (List Char) :=
  let pre := s.takeWhile (fun c => c ≠ sep)
  let rest := s.dropWhile (fun c => c ≠ sep)
  match rest with
  | [] => [pre]
  | _ :: tl => [pre, tl]

def pySplitOnce (s : String) (sep : Char) : List String :=
  (splitOnceL sep s.data).map String.mk

/-- `s.startswith(pre)`. -/
def pyStartsWith (s pre : String) : Bool := pre.data.isPrefixOf s.data

/-- `s.endswith(suf)`. -/
def pyEndsWith (s suf : String) : Bool := suf.data.isSuffixOf s.data

/-- Truthiness of an optional string: Python `if x:` on `Optional[str]`. -/
def optTruthy : Option String → Bool
  | none => false
  | some s => s ≠ ""

/-- `posixpath` basename as computed by `pathlib.PurePosixPath(p).name`:
the last path component after dropping empty and `"."` components
(`""` when no component remains). -/
def pathlibName (p : String) : String :=
  (((splitCharL '/' p.data).map String.mk).filter
    (fun comp => comp ≠ "" && comp ≠ ".")).getLastD ""

/-! ### `shlex.split` (POSIX mode, whitespace_split) -/

/-- The whitespace set of `shlex` (`shlex.whitespace = " \t\r\n"`). -/
def shlexWs (c : Char) : Bool := c = ' ' || c = '\t' || c = '\x0d' || c = '\n'

/-- Scanner state for the POSIX `shlex` model. -/
inductive ShlexMode where
  | normal
  | single
  | double
deriving DecidableEq

/-- One-character-at-a-time POSIX lexer behind `shlex.split`:
single quotes are literal, double quotes allow `\"` and `\\` escapes
(a backslash before any other character is kept together with it),
a bare backslash escapes the next character, and an unterminated quote or
trailing backslash is a `ValueError` (`none`).  `cur` is the current token
reversed; `inTok` records that a token has started (so `''` yields `""`). -/
def shlexCore : List Char → ShlexMode → List Char → Bool → Option (List (List Char))
  | [], .normal, cur, inTok => if inTok then some [cur.reverse] else some []
  | [], .single, _, _ => none
  | [], .double, _, _ => none
  | c :: rest, .normal, cur, inTok =>
    if shlexWs c then
      if inTok then (shlexCore rest .normal [] false).map (cur.reverse :: ·)
      else shlexCore rest .normal [] false
    else if c = '\'' then shlexCore rest .single cur true
    else if c = '"' then shlexCore rest .double cur true
    else if c = '\\' then
      match rest with
      | [] => none
      | d :: rest' => shlexCore rest' .normal (d :: cur) true
    else shlexCore rest .normal (c :: cur) true
  | c :: rest, .single, cur, _ =>
    if c = '\'' then shlexCore rest .normal cur true
    else shlexCore rest .single (c :: cur) true
  | c :: rest, .double, cur, _ =>
    if c = '"' then shlexCore rest .normal cur true
    else if c = '\\' then
      match rest with
      | [] => none
      | d :: rest' =>
        if d = '"' || d = '\\' then shlexCore rest' .double (d :: cur) true
        else shlexCore rest' .double (d :: '\\' :: cur) true
    else shlexCore rest .double (c :: cur) true

/-- `shlex.split(s)`; `none` models the `ValueError` on unbalanced quoting. -/
def shlexSplit (s : String) : Option (List String) :=
  (shlexCore s.data .normal [] false).map (·.map String.mk)

/-! ### `command_utils.py` -/

/-- The command value accepted by `DockerCommandNormalizer.normalize`
(`Union[str, List[str], None]`). -/
inductive PyCmd where
  | none
  | str (s : String)
  | list (xs : List String)
deriving DecidableEq

/-- `NormalizedCommand` dataclass. -/
structure NormalizedCommand where
  executable : String
  args : List String
  is_shell_form : Bool
  shell_command : Option String := Option.none
deriving DecidableEq

namespace DockerCommandNormalizer

/-- `SHELL_COMMANDS`. -/
def SHELL_COMMANDS : List String := ["/bin/sh", "/bin/bash", "sh", "bash"]

/-- `_normalize_path`: `Path(path).name`. -/
def normalize_path (path : String) : String := pathlibName path

/-- `_normalize_args`: drop empty args, replace path-like args by their
basename, strip each kept arg. -/
def normalize_args (args : List String) : List String :=
  args.foldr
    (fun arg acc =>
      if arg = "" then acc
      else if pyContainsChar arg '/' then pyStrip (normalize_path arg) :: acc
      else pyStrip arg :: acc)
    []

/-- `_extract_shell_command`. -/
def extract_shell_command (executable : String) (args : List String) :
    Option String :=
  if SHELL_COMMANDS.contains (normalize_path executable) ∧ 2 ≤ args.length then
    if args.headD "" = "-c" then some (pyJoin " " args.tail) else Option.none
  else Option.none

/-- The body shared by both paths of `_parse_shell_command` (the Python
source repeats these lines verbatim in the `try` and the `except` branch;
they are factored here). -/
def parseParts (parts : List String) : String × List String × Option String :=
  match parts with
  | [] => ("", [], Option.none)
  | executable :: args =>
    match extract_shell_command executable args with
    | some sc =>
      if sc ≠ "" then (executable, ["-c", sc], some sc)
      else (executable, args, Option.none)
    | Option.none => (executable, args, Option.none)

/-- `_parse_shell_command`: shlex-tokenize; on `ValueError` fall back to
whitespace splitting; detect `shell -c` commands. -/
def parse_shell_command (cmd : String) :
    String × List String × Option String :=
  match shlexSplit cmd with
  | some parts => parseParts parts
  | Option.none => parseParts (pySplitWs cmd)

end DockerCommandNormalizer

/-- Body of a Python string literal with closing quote `q`: returns the
decoded content and the remaining characters.  Standard escape sequences are
decoded; an unknown escape keeps the backslash (as Python does); a raw
newline inside the literal is a syntax error. -/
def litStrBody (q : Char) : List Char → Option (List Char × List Char)
  | [] => Option.none
  | '\\' :: d :: rest =>
    let esc : Option Char :=
      if d = 'n' then some '\n'
      else if d = 't' then some '\t'
      else if d = 'r' then some '\x0d'
      else if d = '\\' then some '\\'
      else if d = '\'' then some '\''
      else if d = '"' then some '"'
      else Option.none
    match esc with
    | some e => (litStrBody q rest).map (fun p => (e :: p.1, p.2))
    | Option.none => (litStrBody q rest).map (fun p => ('\\' :: d :: p.1, p.2))
  | c :: rest =>
    if c = q then some ([], rest)
    else if c = '\n' then Option.none
    else (litStrBody q rest).map (fun p => (c :: p.1, p.2))

/-- A Python string literal (single or double quoted), returning content and
rest. -/
def litStr : List Char → Option (List Char × List Char)
  | c :: rest =>
    if c = '\'' ∨ c = '"' then litStrBody c rest else Option.none
  | [] => Option.none

/-- Elements of a Python list literal after the opening `[`: string literals
separated by commas, an optional trailing comma, closed by `]`.  `fuel`
bounds the number of elements. -/
def litListElems (fuel : ℕ) (l : List Char) (first : Bool) :
    Option (List String × List Char) :=
  match fuel with
  | 0 => Option.none
  | fuel + 1 =>
    let l := l.dropWhile isPyWs
    match l with
    | ']' :: rest => some ([], rest)
    | ',' :: rest =>
      if first then Option.none
      else
        let rest := rest.dropWhile isPyWs
        match rest with
        | ']' :: rest' => some ([], rest')
        | _ =>
          match litStr rest with
          | some (s, rest') =>
            (litListElems fuel rest' false).map
              (fun p => (String.mk s :: p.1, p.2))
          | Option.none => Option.none
    | _ =>
      if first then
        match litStr l with
        | some (s, rest') =>
          (litListElems fuel rest' false).map
            (fun p => (String.mk s :: p.1, p.2))
        | Option.none => Option.none
      else Option.none

namespace DockerCommandNormalizer

/-- `_try_parse_json_string`: `ast.literal_eval` restricted to the shapes the
normalizer uses — a string literal or a list of string literals.  Any other
Python literal (numbers, tuples, nested or mixed lists, …) is modelled as a
parse failure. -/
def try_parse_json_string (cmd : String) : Option PyCmd :=
  let l := cmd.data.dropWhile isPyWs
  match l with
  | '[' :: rest =>
    match litListElems (rest.length + 1) rest true with
    | some (xs, rest') =>
      if rest'.dropWhile isPyWs = [] then some (PyCmd.list xs) else Option.none
    | Option.none => Option.none
  | _ =>
    match litStr l with
    | some (s, rest') =>
      if rest'.dropWhile isPyWs = [] then some (PyCmd.str (String.mk s))
      else Option.none
    | Option.none => Option.none

/-- Regular processing of a list command (the non-JSON-unwrapping path of
`normalize`'s list branch): strip the executable and each argument, detect
`shell -c`, and canonicalize `args` when a shell command was found. -/
def normalizeList (xs : List String) : NormalizedCommand :=
  match xs with
  | [] => ⟨"", [], false, Option.none⟩
  | x :: rest =>
    ⟨pyStrip x,
      if optTruthy (extract_shell_command (pyStrip x) (rest.map pyStrip)) then
        ["-c", (extract_shell_command (pyStrip x) (rest.map pyStrip)).getD ""]
      else rest.map pyStrip,
      false,
      extract_shell_command (pyStrip x) (rest.map pyStrip)⟩

/-- Shell-form processing of a string command. -/
def normalizeStr (s : String) : NormalizedCommand :=
  ⟨(parse_shell_command s).1, (parse_shell_command s).2.1, true,
    (parse_shell_command s).2.2⟩

/-- Size measure used as recursion fuel for `normalize` (the recursion depth
of `normalize` is bounded by the textual size of the command). -/
def pyCmdSize : PyCmd → ℕ
  | PyCmd.none => 1
  | PyCmd.str s => s.length + 1
  | PyCmd.list xs => xs.foldr (fun x acc => x.length + 1 + acc) 1

/-- `normalize`, with explicit recursion fuel (each recursive call goes
through `_try_parse_json_string`, whose output is strictly smaller than its
input; with fuel `pyCmdSize cmd + 1` the fuel never runs out). -/
def normalizeGo : ℕ → PyCmd → NormalizedCommand
  | 0, _ => ⟨"", [], false, Option.none⟩
  | _ + 1, PyCmd.none => ⟨"", [], false, Option.none⟩
  | _ + 1, PyCmd.list [] => ⟨"", [], false, Option.none⟩
  | n + 1, PyCmd.list [x] =>
    match try_parse_json_string x with
    | some parsed => normalizeGo n parsed
    | Option.none => normalizeList [x]
  | _ + 1, PyCmd.list (x :: y :: rest) => normalizeList (x :: y :: rest)
  | n + 1, PyCmd.str s =>
    if pyStartsWith (pyStrip s) "[" ∧ pyEndsWith (pyStrip s) "]" then
      match try_parse_json_string (pyStrip s) with
      | some parsed => normalizeGo n parsed
      | Option.none => normalizeStr (pyStrip s)
    else normalizeStr (pyStrip s)

/-- `DockerCommandNormalizer.normalize`. -/
def normalize (cmd : PyCmd) : NormalizedCommand :=
  normalizeGo (pyCmdSize cmd + 1) cmd

/-- `DockerCommandNormalizer.commands_equal` (default `ignore_path=True` is
passed explicitly). -/
def commands_equal (cmd1 cmd2 : NormalizedCommand) (ignore_path : Bool) :
    Bool :=
  if cmd1.executable = "" ∧ cmd2.executable = "" then true
  else if pyStrip (if ignore_path then normalize_path cmd1.executable
                   else cmd1.executable) ≠
          pyStrip (if ignore_path then normalize_path cmd2.executable
                   else cmd2.executable) then false
  else if optTruthy cmd1.shell_command ∧ optTruthy cmd2.shell_command then
    pyStrip (cmd1.shell_command.getD "") = pyStrip (cmd2.shell_command.getD "")
  else if optTruthy cmd1.shell_command ∨ optTruthy cmd2.shell_command then
    false
  else if (normalize_args cmd1.args).length ≠ (normalize_args cmd2.args).length
    then false
  else ((normalize_args cmd1.args).zip (normalize_args cmd2.args)).all
    fun p => p.1 = p.2

end DockerCommandNormalizer

/-! ### Lemmas about the command normalizer -/

namespace DockerCommandNormalizer

theorem pyJoin_space_eq_empty :
    ∀ t : List String, t ≠ [] → pyJoin " " t = "" → t = [""] := by
  intro t hne h
  match t with
  | [x] =>
    simp only [pyJoin] at h
    rw [h]
  | x :: y :: rest =>
    exfalso
    have hlen := congrArg String.length h
    simp only [pyJoin, String.length_append] at hlen
    have h1 : (" " : String).length = 1 := rfl
    have h0 : ("" : String).length = 0 := rfl
    omega

theorem extract_shell_command_args {e sc : String} {args : List String}
    (h : extract_shell_command e args = some sc) :
    ∃ t, args = "-c" :: t ∧ t ≠ [] ∧ pyJoin " " t = sc := by
  unfold extract_shell_command at h
  by_cases hc : SHELL_COMMANDS.contains (normalize_path e) = true ∧
      2 ≤ args.length
  · rw [if_pos hc] at h
    by_cases hh : args.headD "" = "-c"
    · rw [if_pos hh] at h
      match args, hc, hh, h with
      | [], hc, _, _ => simp at hc
      | a :: t, hc, hh, h =>
        have ha : a = "-c" := by simpa using hh
        have htne : t ≠ [] := by
          intro ht
          subst ht
          simp at hc
        refine ⟨t, by rw [ha], htne, ?_⟩
        simpa using Option.some.inj h
    · rw [if_neg hh] at h
      simp at h
  · rw [if_neg hc] at h
    simp at h

theorem parseParts_shell {ps : List String} {sc : String}
    (h : (parseParts ps).2.2 = some sc) :
    (parseParts ps).2.1 = ["-c", sc] := by
  cases ps with
  | nil => simp [parseParts] at h
  | cons e args =>
    cases hx : extract_shell_command e args with
    | some sc' =>
      simp only [parseParts, hx] at h ⊢
      by_cases hne : sc' ≠ ""
      · rw [if_pos hne] at h ⊢
        cases Option.some.inj h
        rfl
      · rw [if_neg hne] at h
        simp at h
    | none =>
      simp only [parseParts, hx] at h
      exact Option.noConfusion h

theorem parse_shell_command_shell {s sc : String}
    (h : (parse_shell_command s).2.2 = some sc) :
    (parse_shell_command s).2.1 = ["-c", sc] := by
  unfold parse_shell_command at h ⊢
  cases hs : shlexSplit s with
  | some parts =>
    rw [hs] at h
    exact parseParts_shell h
  | none =>
    rw [hs] at h
    exact parseParts_shell h

theorem normalizeList_shell {xs : List String} {sc : String}
    (h : (normalizeList xs).shell_command = some sc) :
    (normalizeList xs).args = ["-c", sc] := by
  cases xs with
  | nil => simp [normalizeList] at h
  | cons x rest =>
    simp only [normalizeList] at h ⊢
    cases hx : extract_shell_command (pyStrip x) (rest.map pyStrip) with
    | some sc' =>
      have hss : sc' = sc := Option.some.inj (hx.symm.trans h)
      rw [← hss]
      by_cases ht : optTruthy (some sc') = true
      · rw [if_pos ht]
        rfl
      · rw [if_neg ht]
        have hsc : sc' = "" := by
          simp only [optTruthy, ne_eq, decide_eq_true_eq] at ht
          by_cases hx2 : sc' = ""
          · exact hx2
          · exact absurd (by simpa using hx2) ht
        obtain ⟨t, hargs, htne, hjoin⟩ := extract_shell_command_args hx
        rw [hargs, hsc, pyJoin_space_eq_empty t htne (hsc ▸ hjoin)]
    | none => simp [hx] at h

theorem normalizeStr_shell {s sc : String}
    (h : (normalizeStr s).shell_command = some sc) :
    (normalizeStr s).args = ["-c", sc] := by
  simp only [normalizeStr] at h ⊢
  exact parse_shell_command_shell h

theorem normalizeGo_shell :
    ∀ (n : ℕ) (cmd : PyCmd) (sc : String),
      (normalizeGo n cmd).shell_command = some sc →
      (normalizeGo n cmd).args = ["-c", sc] := by
  intro n
  induction n with
  | zero =>
    intro cmd sc h
    simp [normalizeGo] at h
  | succ n ih =>
    intro cmd sc h
    cases cmd with
    | none => simp [normalizeGo] at h
    | str s =>
      simp only [normalizeGo] at h ⊢
      by_cases hb : pyStartsWith (pyStrip s) "[" = true ∧
          pyEndsWith (pyStrip s) "]" = true
      · rw [if_pos hb] at h ⊢
        cases hp : try_parse_json_string (pyStrip s) with
        | some parsed =>
          simp only [hp] at h
          exact ih parsed sc h
        | none =>
          simp only [hp] at h
          exact normalizeStr_shell h
      · rw [if_neg hb] at h ⊢
        exact normalizeStr_shell h
    | list xs =>
      cases xs with
      | nil => simp [normalizeGo] at h
      | cons x xs' =>
        cases xs' with
        | nil =>
          simp only [normalizeGo] at h ⊢
          cases hp : try_parse_json_string x with
          | some parsed =>
            simp only [hp] at h
            exact ih parsed sc h
          | none =>
            simp only [hp] at h
            exact normalizeList_shell h
        | cons y rest =>
          simp only [normalizeGo] at h ⊢
          exact normalizeList_shell h

theorem zip_all_eq_comm :
    ∀ l1 l2 : List String,
      ((l1.zip l2).all fun p => p.1 = p.2) =
        ((l2.zip l1).all fun p => p.1 = p.2) := by
  intro l1
  induction l1 with
  | nil =>
    intro l2
    cases l2 <;> rfl
  | cons x l1 ih =>
    intro l2
    cases l2 with
    | nil => rfl
    | cons y l2 =>
      simp only [List.zip_cons_cons, List.all_cons, ih l2]
      have hd : (decide (x = y)) = (decide (y = x)) :=
        decide_eq_decide.mpr ⟨Eq.symm, Eq.symm⟩
      rw [hd]

end DockerCommandNormalizer

/-! ### `models.py`: package-manager data model -/

/-- `PackageManager` enum, in definition order. -/
inductive PackageManager where
  | APT
  | APT_GET
  | PIP
  | PIP3
  | NPM
  | YARN
  | DNF
  | YUM
  | APK
deriving DecidableEq

/-- The string value of each `PackageManager` member. -/
def pmValue : PackageManager → String
  | .APT => "apt"
  | .APT_GET => "apt-get"
  | .PIP => "pip"
  | .PIP3 => "pip3"
  | .NPM => "npm"
  | .YARN => "yarn"
  | .DNF => "dnf"
  | .YUM => "yum"
  | .APK => "apk"

/-- Iteration order of `for pkg_mgr in PackageManager`. -/
def pmList : List PackageManager :=
  [.APT, .APT_GET, .PIP, .PIP3, .NPM, .YARN, .DNF, .YUM, .APK]

/-- `PackageCommand` dataclass (the `version_constraints` dict is an ordered
association list with unique keys, insertion-ordered like a Python dict). -/
structure PackageCommand where
  manager : PackageManager
  command : String
  packages : List String
  version_constraints : List (String × String)
deriving DecidableEq

/-- `d[k] = v` on an insertion-ordered dict. -/
def dictSet (d : List (String × String)) (k v : String) :
    List (String × String) :=
  if (d.lookup k).isSome then
    d.map (fun p => if p.1 = k then (k, v) else p)
  else d ++ [(k, v)]

/-! ### `utils.py`: regex scaffolding

The regular expressions of `utils.py` are embedded as direct character-level
matchers.  Greedy repetition with the backtracking the concrete patterns can
actually exercise is implemented; the one un-modelled corner is re-splitting
a trailing `\s+` of a flag iteration when the final capture group would
otherwise be empty (it only matters for inputs whose packages-region starts
with `;`, `|` or `&`). -/

/-- Consume a literal. -/
def dropLit (lit : String) (s : List Char) : Option (List Char) :=
  if lit.data.isPrefixOf s then some (s.drop lit.data.length) else Option.none

/-- `\s+`: at least one whitespace character, greedy. -/
def eatWs1 : List Char → Option (List Char)
  | c :: rest => if isPyWs c then some (rest.dropWhile isPyWs) else Option.none
  | [] => Option.none

/-- `.+$`: the captured core (all remaining characters, which must be
non-empty and contain no newline except a single trailing one). -/
def dotPlusDollar (l : List Char) : Option (List Char) :=
  if l.takeWhile (fun c => c ≠ '\n') ≠ [] ∧
      (l = l.takeWhile (fun c => c ≠ '\n') ∨
        l = l.takeWhile (fun c => c ≠ '\n') ++ ['\n']) then
    some (l.takeWhile (fun c => c ≠ '\n'))
  else Option.none

/-- The characters `[=<>!~]` that may start a pip version operator. -/
def pipOpChar (c : Char) : Bool :=
  c = '=' || c = '<' || c = '>' || c = '!' || c = '~'

/-- `PackageManagerPatterns.PIP`, `r'^([^=<>!~]+)(==|>=|<=|!=|~=)(\d.+)$'`:
returns `(name, operator, version)`. -/
def PIP_pat (s : List Char) : Option (List Char × List Char × List Char) :=
  let name := s.takeWhile (fun c => !pipOpChar c)
  let rest := s.dropWhile (fun c => !pipOpChar c)
  if name = [] then Option.none
  else
    match rest with
    | c1 :: c2 :: rest' =>
      if c2 = '=' then
        match rest' with
        | d :: tail =>
          if d.isDigit then
            match dotPlusDollar tail with
            | some core => some (name, [c1, c2], d :: core)
            | Option.none => Option.none
          else Option.none
        | [] => Option.none
      else Option.none
    | _ => Option.none

/-- `PackageManagerPatterns.APT` (= `APK`), `r'^([^=]+)(=.+)$'`:
returns `(name, constraint-with-equals)`. -/
def APT_pat (s : List Char) : Option (List Char × List Char) :=
  let name := s.takeWhile (fun c => c ≠ '=')
  let rest := s.dropWhile (fun c => c ≠ '=')
  if name = [] then Option.none
  else
    match rest with
    | '=' :: tail =>
      match dotPlusDollar tail with
      | some core => some (name, '=' :: core)
      | Option.none => Option.none
    | _ => Option.none

/-- `PackageManagerPatterns.DNF`, `r'^([^-]+)-(\d.+)$'`. -/
def DNF_pat (s : List Char) : Option (List Char × List Char) :=
  let name := s.takeWhile (fun c => c ≠ '-')
  let rest := s.dropWhile (fun c => c ≠ '-')
  if name = [] then Option.none
  else
    match rest with
    | '-' :: d :: tail =>
      if d.isDigit then
        match dotPlusDollar tail with
        | some core => some (name, d :: core)
        | Option.none => Option.none
      else Option.none
    | _ => Option.none

/-- `PackageManagerPatterns.NPM`, `r'^([^@]+)@(.+)$'`. -/
def NPM_pat (s : List Char) : Option (List Char × List Char) :=
  let name := s.takeWhile (fun c => c ≠ '@')
  let rest := s.dropWhile (fun c => c ≠ '@')
  if name = [] then Option.none
  else
    match rest with
    | '@' :: tail =>
      match dotPlusDollar tail with
      | some core => some (name, core)
      | Option.none => Option.none
    | _ => Option.none

/-- `clean_version_string`: drop everything before the first digit (return
the input unchanged when it has no digit). -/
def clean_version_string (version : String) : String :=
  match version.data.dropWhile (fun c => !c.isDigit) with
  | [] => version
  | l => String.mk l

/-- The generic-parsing fallback at the end of `parse_version_constraint`. -/
def parseVersionFallback (package : String) : String × String :=
  match PIP_pat package.data with
  | some (n, op, v) =>
    if op = ['=', '='] then (String.mk n, String.mk v)
    else (String.mk n, String.mk (op ++ v))
  | Option.none =>
    match APT_pat package.data with
    | some (n, v) => (String.mk n, clean_version_string (String.mk v))
    | Option.none =>
      match DNF_pat package.data with
      | some (n, v) => (String.mk n, String.mk v)
      | Option.none => (package, "")

/-- `parse_version_constraint`.  The manager-specific patterns cover
NPM/YARN, PIP, APT/APT-GET/APK and DNF/YUM; `pip3` is absent from the
pattern table, so it goes straight to the fallback, as does a failed
manager-specific match. -/
def parse_version_constraint (package : String)
    (package_manager : Option PackageManager) : String × String :=
  match package_manager with
  | some m =>
    if m = .NPM ∨ m = .YARN then
      match NPM_pat package.data with
      | some (n, v) => (String.mk n, String.mk v)
      | Option.none => parseVersionFallback package
    else if m = .APT ∨ m = .APT_GET ∨ m = .APK then
      match APT_pat package.data with
      | some (n, v) => (String.mk n, clean_version_string (String.mk v))
      | Option.none => parseVersionFallback package
    else if m = .DNF ∨ m = .YUM then
      match DNF_pat package.data with
      | some (n, v) => (String.mk n, String.mk v)
      | Option.none => parseVersionFallback package
    else if m = .PIP then
      match PIP_pat package.data with
      | some (n, op, v) =>
        if op = ['=', '='] then (String.mk n, String.mk v)
        else (String.mk n, String.mk (op ++ v))
      | Option.none => parseVersionFallback package
    else parseVersionFallback package
  | Option.none => parseVersionFallback package

/-! ### `utils.py`: `PACKAGE_PATTERNS` and command parsing -/

/-- One entry of `PACKAGE_PATTERNS`: leading literals (each optionally
followed by one character of `opts`, as in `pip[23]?`), each separated from
the next part by `\s+`, then flag loops `(?:-[^\s]*\s+)*` for each dash
string, then the capture `([^;|&]+)`. -/
structure PkgRe where
  lits : List (String × List Char)
  flagDashes : List String

/-- Consume one literal with optional suffix character and trailing `\s+`.
If the optional character is taken but no whitespace follows, fall back to
not taking it (the only backtracking the `?` can need here). -/
def afterLit (b : String) (opts : List Char) (s : List Char) :
    Option (List Char) :=
  match dropLit b s with
  | Option.none => Option.none
  | some rest =>
    match rest with
    | c :: rest' =>
      if opts.contains c then (eatWs1 rest').orElse (fun _ => eatWs1 rest)
      else eatWs1 rest
    | [] => Option.none

/-- Consume all leading literals of a pattern. -/
def matchLits : List (String × List Char) → List Char → Option (List Char)
  | [], s => some s
  | (b, opts) :: ls, s =>
    match afterLit b opts s with
    | some rest => matchLits ls rest
    | Option.none => Option.none

/-- One iteration of a flag loop: the dash literal, `[^\s]*` greedy, `\s+`. -/
def eatFlag (dash : String) (s : List Char) : Option (List Char) :=
  match dropLit dash s with
  | Option.none => Option.none
  | some rest => eatWs1 (rest.dropWhile (fun c => !isPyWs c))

/-- `([^;|&]+)`. -/
def pkgCapture (s : List Char) : Option (List Char) :=
  let grp := s.takeWhile (fun c => c ≠ ';' ∧ c ≠ '|' ∧ c ≠ '&')
  if grp = [] then Option.none else some grp

/-- The flag loops followed by the capture, with iteration-level
backtracking (more iterations are preferred; a failing continuation retries
with fewer iterations, then with the next loop). -/
def flagsThenCapture (fuel : ℕ) : List String → List Char → Option (List Char)
  | [], s => pkgCapture s
  | d :: ds, s =>
    match fuel with
    | 0 => Option.none
    | fuel + 1 =>
      (match eatFlag d s with
       | some rest => flagsThenCapture fuel (d :: ds) rest
       | Option.none => Option.none).orElse
        (fun _ => flagsThenCapture fuel ds s)

/-- Match a `PACKAGE_PATTERNS` regex at the start of `s`, returning the
capture group. -/
def pkgMatchAt (p : PkgRe) (s : List Char) : Option (List Char) :=
  match matchLits p.lits s with
  | some rest => flagsThenCapture (rest.length + 1) p.flagDashes rest
  | Option.none => Option.none

/-- `re.search`: try the pattern at every start position, leftmost first. -/
def pkgSearch (p : PkgRe) : List Char → Option (List Char)
  | [] => pkgMatchAt p []
  | c :: rest => (pkgMatchAt p (c :: rest)).orElse (fun _ => pkgSearch p rest)

/-- `PACKAGE_PATTERNS` in dict insertion order. -/
def PACKAGE_PATTERNS : List (PackageManager × List PkgRe) :=
  [(.APT, [⟨[("apt-get", []), ("install", [])], ["-", "--"]⟩,
           ⟨[("apt", []), ("install", [])], ["-", "--"]⟩]),
   (.PIP, [⟨[("pip", ['2', '3']), ("install", [])], ["--"]⟩,
           ⟨[("python", ['2', '3']), ("-m", []), ("pip", []),
             ("install", [])], ["--"]⟩]),
   (.YUM, [⟨[("yum", []), ("install", [])], ["-", "--"]⟩]),
   (.DNF, [⟨[("dnf", []), ("install", [])], ["-", "--"]⟩]),
   (.APK, [⟨[("apk", []), ("add", [])], ["-", "--"]⟩]),
   (.NPM, [⟨[("npm", []), ("install", [])], ["--"]⟩]),
   (.YARN, [⟨[("yarn", []), ("add", [])], ["--"]⟩])]

/-- Token cleanup inside `extract_package_patterns`: drop flags and tokens
holding a sub-verb. -/
def pkgTokenKeep (pkg : String) : Bool :=
  !(pyStartsWith pkg "-") &&
    !(["install", "update", "remove", "purge"].any
      (fun v => pyContains (pyLower pkg) v))

/-- `extract_package_patterns`.  `shlex.split` on a packages-region can
raise `ValueError`, which propagates (`Except.error`). -/
def extract_package_patterns (command : String) :
    Except Unit (List (PackageManager × String × List String)) :=
  (PACKAGE_PATTERNS.foldl
    (fun acc entry =>
      entry.2.foldl
        (fun acc p => do
          let results ← acc
          match pkgSearch p command.data with
          | some grp =>
            match shlexSplit (pyStrip (String.mk grp)) with
            | some raw =>
              let packages := raw.filter pkgTokenKeep
              if packages ≠ [] then
                let cmd_type :=
                  if (entry.1 = .APK ∨ entry.1 = .YARN) ∧
                      pyContains command "add" then "add"
                  else "install"
                pure (results ++ [(entry.1, cmd_type, packages)])
              else pure results
            | Option.none => Except.error ()
          | Option.none => pure results)
        acc)
    (pure []))

/-- `^/bin/sh\s+-c\s+` removal (`re.sub` with an anchored pattern). -/
def stripShPre (s : String) : String :=
  match dropLit "/bin/sh" s.data with
  | some r1 =>
    match eatWs1 r1 with
    | some r2 =>
      match dropLit "-c" r2 with
      | some r3 =>
        match eatWs1 r3 with
        | some r4 => String.mk r4
        | Option.none => s
      | Option.none => s
    | Option.none => s
  | Option.none => s

/-- `^set\s+-[eux]+;\s*` removal. -/
def stripSetPre (s : String) : String :=
  match dropLit "set" s.data with
  | some r1 =>
    match eatWs1 r1 with
    | some r2 =>
      match dropLit "-" r2 with
      | some r3 =>
        let flags := r3.takeWhile (fun c => c = 'e' || c = 'u' || c = 'x')
        let r4 := r3.dropWhile (fun c => c = 'e' || c = 'u' || c = 'x')
        if flags ≠ [] then
          match r4 with
          | ';' :: r5 => String.mk (r5.dropWhile isPyWs)
          | _ => s
        else s
      | Option.none => s
    | Option.none => s
  | Option.none => s

/-- Group shlex tokens into commands, splitting at `&&`, `||`, `;`. -/
def groupTokens (tokens : List String) : List String :=
  let step := tokens.foldl
    (fun (st : List String × List String) token =>
      if token = "&&" ∨ token = "||" ∨ token = ";" then
        if st.2 ≠ [] then (st.1 ++ [pyJoin " " st.2], []) else (st.1, [])
      else (st.1, st.2 ++ [token]))
    ([], [])
  if step.2 ≠ [] then step.1 ++ [pyJoin " " step.2] else step.1

/-- `split_shell_commands`. -/
def split_shell_commands (command : String) : Except Unit (List String) :=
  let command := stripSetPre (stripShPre command)
  match shlexSplit command with
  | Option.none => Except.error ()
  | some tokens =>
    let commands := groupTokens tokens
    let final := commands.flatMap
      (fun cmd => (splitCharL '|' cmd.data).map String.mk)
    pure ((final.map pyStrip).filter (fun c => c ≠ ""))

/-- The version-constraints dict built from a package list. -/
def constraintsOf (packages : List String) (m : PackageManager) :
    List (String × String) :=
  packages.foldl
    (fun acc pkg =>
      let nv := parse_version_constraint pkg (some m)
      if nv.2 ≠ "" then dictSet acc nv.1 nv.2 else acc)
    []

/-- The verb normalization of `parse_package_command`'s exact-prefix loop
(`none` models `continue`). -/
def normVerb (m : PackageManager) (ct : String) : Option String :=
  if (m = .APK ∨ m = .YARN) ∧ ct = "add" then some "add"
  else if ct = "install" ∨ ct = "i" then some "install"
  else if ct = "update" ∨ ct = "up" then some "update"
  else if ct = "upgrade" then some "upgrade"
  else Option.none

/-- The pattern-based first phase of `parse_package_command`. -/
def patternPhase : List String → Except Unit (Option PackageCommand)
  | [] => pure Option.none
  | cmd :: rest => do
    let ms ← extract_package_patterns cmd
    match ms with
    | (mgr, cmd_type, packages) :: _ =>
      pure (some ⟨mgr, cmd_type, packages, constraintsOf packages mgr⟩)
    | [] => patternPhase rest

/-- The exact-prefix second phase of `parse_package_command`. -/
def exactPhase : List PackageManager → String → Except Unit (Option PackageCommand)
  | [], _ => pure Option.none
  | m :: ms, command =>
    if pyStartsWith command (pmValue m ++ " ") then
      match pySplitWs
          (pyStrip (String.mk (command.data.drop
            (pmValue m ++ " ").length))) with
      | [] => exactPhase ms command
      | ct :: restParts =>
        match normVerb m ct with
        | some verb =>
          match shlexSplit (pyJoin " " restParts) with
          | some packages =>
            pure (some ⟨m, verb, packages, constraintsOf packages m⟩)
          | Option.none => Except.error ()
        | Option.none => exactPhase ms command
    else exactPhase ms command

/-- `parse_package_command`. -/
def parse_package_command (command : String) :
    Except Unit (Option PackageCommand) := do
  let commands ← split_shell_commands command
  match ← patternPhase commands with
  | some pc => pure (some pc)
  | Option.none => exactPhase pmList (pyJoin " " (pySplitWs command))

/-! ### Lemmas about version-constraint parsing -/

theorem strExt {a b : String} (h : a.data = b.data) : a = b :=
  congrArg String.mk h

theorem strMkAppend (a b : String) :
    String.mk (a.data ++ b.data) = a ++ b := by
  have h := String.data_append a b
  calc String.mk (a.data ++ b.data)
      = String.mk (a ++ b).data := by rw [h]
    _ = a ++ b := rfl

theorem splitAtAppend (p : Char → Bool) :
    ∀ (l1 : List Char) (c : Char) (l2 : List Char),
      (∀ x ∈ l1, p x = true) → p c = false →
      (l1 ++ c :: l2).takeWhile p = l1 ∧
        (l1 ++ c :: l2).dropWhile p = c :: l2 := by
  intro l1
  induction l1 with
  | nil =>
    intro c l2 _ hc
    simp [List.takeWhile_cons, List.dropWhile_cons, hc]
  | cons a l1 ih =>
    intro c l2 hall hc
    have ha : p a = true := hall a (by simp)
    have hrest : ∀ x ∈ l1, p x = true := fun x hx => hall x (by simp [hx])
    have hih := ih c l2 hrest hc
    simp [List.takeWhile_cons, List.dropWhile_cons, ha, hih.1, hih.2]

theorem takeWhileNoNl :
    ∀ t : List Char, '\n' ∉ t →
      t.takeWhile (fun c => c ≠ '\n') = t := by
  intro t
  induction t with
  | nil => intro _; rfl
  | cons a t ih =>
    intro h
    have ha : ¬a = '\n' := by
      intro hx
      subst hx
      exact h (List.mem_cons_self _ _)
    have ht' : '\n' ∉ t := fun hx => h (List.mem_cons_of_mem a hx)
    have hdec : decide (a ≠ '\n') = true := by simp [ha]
    rw [List.takeWhile_cons, if_pos hdec, ih ht']

theorem PIP_pat_concat (nameL : List Char) (c1 d : Char) (t : List Char)
    (hname : nameL ≠ []) (hnop : ∀ c ∈ nameL, pipOpChar c = false)
    (hc1 : pipOpChar c1 = true) (hd : d.isDigit = true)
    (ht : t ≠ []) (hnl : '\n' ∉ t) :
    PIP_pat (nameL ++ c1 :: '=' :: d :: t) =
      some (nameL, [c1, '='], d :: t) := by
  unfold PIP_pat
  have hsplit := splitAtAppend (fun c => !pipOpChar c) nameL c1
    ('=' :: d :: t) (fun x hx => by simp [hnop x hx]) (by simp [hc1])
  rw [hsplit.1, hsplit.2, if_neg (by simpa using hname)]
  show (if ('=' : Char) = '=' then
          if d.isDigit = true then
            match dotPlusDollar t with
            | some core => some (nameL, [c1, '='], d :: core)
            | Option.none => Option.none
          else Option.none
        else Option.none) = some (nameL, [c1, '='], d :: t)
  rw [if_pos rfl, if_pos hd]
  unfold dotPlusDollar
  rw [takeWhileNoNl t hnl, if_pos ⟨ht, Or.inl rfl⟩]

/-- The pip branch of `parse_version_constraint` (all manager tests are
closed, so this is definitional). -/
theorem parse_version_constraint_pip (package : String) :
    parse_version_constraint package (some PackageManager.PIP) =
      match PIP_pat package.data with
      | some (n, op, v) =>
        if op = ['=', '='] then (String.mk n, String.mk v)
        else (String.mk n, String.mk (op ++ v))
      | Option.none => parseVersionFallback package := rfl

theorem parse_version_constraint_pip_concat
    (name op version : String) (c1 d : Char) (t : List Char)
    (hopd : op.data = [c1, '=']) (hc1 : pipOpChar c1 = true)
    (hname : name ≠ "")
    (hnop : ∀ c ∈ name.data, pipOpChar c = false)
    (hvd : version.data = d :: t) (hd : d.isDigit = true)
    (ht : t ≠ []) (hnl : '\n' ∉ t) :
    parse_version_constraint (name ++ op ++ version)
      (some PackageManager.PIP) =
      (name, if op = "==" then version else op ++ version) := by
  have hdata : (name ++ op ++ version).data =
      name.data ++ c1 :: '=' :: d :: t := by
    rw [String.data_append, String.data_append, hopd, hvd]
    simp
  have hnamene : name.data ≠ [] := by
    intro hx
    exact hname (strExt (by simpa using hx))
  rw [parse_version_constraint_pip, hdata,
    PIP_pat_concat name.data c1 d t hnamene hnop hc1 hd ht hnl]
  show (if ([c1, '='] : List Char) = ['=', '='] then
          (String.mk name.data, String.mk (d :: t))
        else (String.mk name.data, String.mk ([c1, '='] ++ d :: t))) =
      (name, if op = "==" then version else op ++ version)
  have hopiff : (op = "==") ↔ (c1 = '=') := by
    constructor
    · intro hx
      have := congrArg String.data hx
      rw [hopd] at this
      simpa using this
    · intro hx
      apply strExt
      rw [hopd, hx]
  by_cases hc : c1 = '='
  · subst hc
    rw [if_pos rfl, if_pos (hopiff.mpr rfl)]
    have h1 : String.mk name.data = name := rfl
    have h2 : String.mk (d :: t) = version := by
      rw [← hvd]
    rw [h1, h2]
  · have hlist : ([c1, '='] : List Char) ≠ ['=', '='] := by
      intro hx
      exact hc (by simpa using List.head_eq_of_cons_eq hx)
    rw [if_neg hlist, if_neg (fun hx => hc (hopiff.mp hx))]
    have h1 : String.mk name.data = name := rfl
    have h2 : String.mk ([c1, '='] ++ d :: t) = op ++ version := by
      rw [← hopd, ← hvd]
      exact strMkAppend op version
    rw [h1, h2]

/-! ### Claims C3 and C8 -/

/-- C3: the claim (and the repository's own test
`tests/services/dockersdk/test_utils.py::test_parse_package_command`) expects
`manager == PackageManager.APT_GET` and `packages == ["python3", "nginx"]`,
but the regex path of `parse_package_command` keys the apt-get patterns
under `PackageManager.APT` and keeps the `=version` suffix inside the
package tokens.  This theorem evaluates the embedded code at the claim's
input and records the divergence. -/
theorem C3_apt_package_extraction_eval :
    parse_package_command
        "apt-get install -y --no-install-recommends python3=3.9.5-2 nginx" =
      Except.ok (some ⟨PackageManager.APT, "install",
        ["python3=3.9.5-2", "nginx"], [("python3", "3.9.5-2")]⟩) ∧
      PackageManager.APT ≠ PackageManager.APT_GET ∧
      (["python3=3.9.5-2", "nginx"] : List String) ≠ ["python3", "nginx"] :=
  ⟨by rfl, by decide, by decide⟩

/-- C8 counterexample: the pip token `"a>=2"` has the form `name OP version`
with `OP = ">="`, yet parsing it with the pip manager yields `("a>", "2")`
(the pip regex requires the version to be a digit followed by at least one
more character, so the token falls through to the generic `name=rest`
fallback), not `("a", ">=2")` as the claim requires. -/
theorem C8_counterexample :
    parse_version_constraint "a>=2" (some PackageManager.PIP) = ("a>", "2") ∧
      (("a>", "2") : String × String) ≠ ("a", ">=2") :=
  ⟨by rfl, by decide⟩

/-- C8 (amended): for every pip token `name ++ OP ++ version` with
`OP ∈ {==, >=, <=, !=, ~=}`, where `name` is non-empty and contains none of
the operator characters `= < > ! ~`, and `version` starts with a digit, has
at least two characters and contains no newline, parsing with the pip
manager yields `(name, version)` when `OP = "=="` and
`(name, OP ++ version)` otherwise. -/
theorem C8_pip_version_constraint (name op version : String)
    (hname : name ≠ "")
    (hnop : ∀ c ∈ name.data, pipOpChar c = false)
    (hop : op = "==" ∨ op = ">=" ∨ op = "<=" ∨ op = "!=" ∨ op = "~=")
    (hlen : 2 ≤ version.length)
    (hdig : (version.data.headD ' ').isDigit = true)
    (hnl : '\n' ∉ version.data) :
    parse_version_constraint (name ++ op ++ version)
      (some PackageManager.PIP) =
      (name, if op = "==" then version else op ++ version) := by
  obtain ⟨d, t, hvd⟩ : ∃ d t, version.data = d :: t := by
    cases hv : version.data with
    | nil =>
      exfalso
      have : version.length = 0 := by
        show version.data.length = 0
        rw [hv]
        rfl
      omega
    | cons d t => exact ⟨d, t, rfl⟩
  have ht : t ≠ [] := by
    intro hx
    subst hx
    have : version.length = 1 := by
      show version.data.length = 1
      rw [hvd]
      rfl
    omega
  have hd : d.isDigit = true := by
    rw [hvd] at hdig
    simpa using hdig
  have hnlt : '\n' ∉ t := by
    rw [hvd] at hnl
    exact fun hx => hnl (List.mem_cons_of_mem d hx)
  rcases hop with rfl | rfl | rfl | rfl | rfl
  · exact parse_version_constraint_pip_concat name "==" version '=' d t
      rfl (by decide) hname hnop hvd hd ht hnlt
  · exact parse_version_constraint_pip_concat name ">=" version '>' d t
      rfl (by decide) hname hnop hvd hd ht hnlt
  · exact parse_version_constraint_pip_concat name "<=" version '<' d t
      rfl (by decide) hname hnop hvd hd ht hnlt
  · exact parse_version_constraint_pip_concat name "!=" version '!' d t
      rfl (by decide) hname hnop hvd hd ht hnlt
  · exact parse_version_constraint_pip_concat name "~=" version '~' d t
      rfl (by decide) hname hnop hvd hd ht hnlt

/-- Witness for C8 at the concrete token `"requests>=2.25.1"`. -/
theorem C8_pip_version_constraint_witness :
    parse_version_constraint ("requests" ++ ">=" ++ "2.25.1")
      (some PackageManager.PIP) =
      ("requests",
        if (">=" : String) = "==" then "2.25.1" else ">=" ++ "2.25.1") :=
  C8_pip_version_constraint "requests" ">=" "2.25.1" (by decide)
    (by decide) (Or.inr (Or.inl rfl)) (by decide) (by decide) (by decide)

/-! ### `dockerfile_analyzer.py`: instruction parsing -/

/-- The first whitespace-delimited token of a string. -/
def firstWsToken (s : String) : String :=
  String.mk ((s.data.dropWhile isPyWs).takeWhile (fun c => !isPyWs c))

/-- `content.split(maxsplit=1)`: at most one split on a whitespace run; the
remainder keeps its trailing (but not leading) whitespace. -/
def pySplitMax1 (s : String) : List String :=
  if s.data.dropWhile isPyWs = [] then []
  else
    if (((s.data.dropWhile isPyWs).dropWhile
        (fun c => !isPyWs c)).dropWhile isPyWs) = [] then
      [firstWsToken s]
    else
      [firstWsToken s,
        String.mk (((s.data.dropWhile isPyWs).dropWhile
          (fun c => !isPyWs c)).dropWhile isPyWs)]

/-- `DockerInstruction` dataclass (of `dockerfile_analyzer.py`). -/
structure DockerInstruction where
  type : String
  content : String
  line_number : ℕ
  args : List String
deriving DecidableEq

/-- `DockerfileAnalyzer._parse_single_instruction`. -/
def parse_single_instruction (content : String) (line_number : ℕ) :
    Option DockerInstruction :=
  match pySplitMax1 content with
  | [] => Option.none
  | kw :: rest =>
    some
      { type := pyUpper kw
        content := content
        line_number := line_number
        args :=
          if pyUpper kw = "RUN" ∨ pyUpper kw = "LABEL" ∨
              pyUpper kw = "ENV" then [rest.headD ""]
          else if pyUpper kw = "COPY" ∧
              pyContains (rest.headD "") "--from=" then
            pySplitWs (rest.headD "")
          else (pySplitWs (rest.headD "")).map pyStrip }

theorem pySplitMax1_head {content : String} {kw : String}
    {rest : List String} (h : pySplitMax1 content = kw :: rest) :
    kw = firstWsToken content := by
  unfold pySplitMax1 at h
  by_cases h1 : content.data.dropWhile isPyWs = []
  · rw [if_pos h1] at h
    exact absurd h (by simp)
  · rw [if_neg h1] at h
    by_cases h2 : (((content.data.dropWhile isPyWs).dropWhile
        (fun c => !isPyWs c)).dropWhile isPyWs) = []
    · rw [if_pos h2] at h
      exact List.head_eq_of_cons_eq h.symm
    · rw [if_neg h2] at h
      exact List.head_eq_of_cons_eq h.symm

/-! ### Claim C9 -/

/-- C9 counterexample: a keyword outside the known instruction set does not
yield kind `OTHER`; the parser keeps the upper-cased keyword verbatim, so
`"foobar xyz"` parses with kind `"FOOBAR"`. -/
theorem C9_counterexample :
    parse_single_instruction "foobar xyz" 1 =
      some ⟨"FOOBAR", "foobar xyz", 1, ["xyz"]⟩ ∧
      ("FOOBAR" : String) ≠ "OTHER" :=
  ⟨by rfl, by decide⟩

/-- C9 (amended): for every line parsed as a Dockerfile instruction, the
instruction's kind equals the first whitespace-delimited token upper-cased,
verbatim — there is no mapping into a known instruction set, and an unknown
keyword keeps its upper-cased form instead of becoming `OTHER`. -/
theorem C9_kind_is_uppercased_first_token (content : String) (ln : ℕ)
    (instr : DockerInstruction)
    (h : parse_single_instruction content ln = some instr) :
    instr.type = pyUpper (firstWsToken content) := by
  unfold parse_single_instruction at h
  cases hs : pySplitMax1 content with
  | nil =>
    rw [hs] at h
    exact absurd h (by simp)
  | cons kw rest =>
    rw [hs] at h
    have hkw := pySplitMax1_head hs
    cases Option.some.inj h
    rw [← hkw]

/-- Witness for C9 at the concrete line `"expose 8080"`. -/
theorem C9_kind_is_uppercased_first_token_witness :
    (parse_single_instruction "expose 8080" 3).isSome = true ∧
      ((parse_single_instruction "expose 8080" 3).getD
        ⟨"", "", 0, []⟩).type = pyUpper (firstWsToken "expose 8080") := by
  refine ⟨by rfl, ?_⟩
  exact C9_kind_is_uppercased_first_token "expose 8080" 3
    ⟨"EXPOSE", "expose 8080", 3, ["8080"]⟩ (by rfl)

/-! ### `config.py`: default matching configuration (floats as `ℚ`) -/

structure MatchingWeights where
  base_image : ℚ
  layer_match : ℚ
  metadata : ℚ
  context : ℚ
deriving DecidableEq

structure MatchingThresholds where
  likely_match : ℚ
  excellent_match : ℚ
  good_match : ℚ
  fair_match : ℚ
  poor_match : ℚ
deriving DecidableEq

structure LayerMatching where
  exact_match_threshold : ℚ
  partial_match_threshold : ℚ
  sequence_weight : ℚ
  command_weight : ℚ
deriving DecidableEq

structure PathMatching where
  exact_path_score : ℚ
  parent_path_score : ℚ
  filename_only_score : ℚ
  extension_match_score : ℚ
deriving DecidableEq

structure LabelMatching where
  maintainer : ℚ
  version : ℚ
  description : ℚ
  other : ℚ
deriving DecidableEq

structure ContextMatching where
  file_presence_weight : ℚ
  path_pattern_weight : ℚ
deriving DecidableEq

structure CommandTypeWeights where
  RUN : ℚ
  COPY : ℚ
  ADD : ℚ
  ENV : ℚ
  WORKDIR : ℚ
  EXPOSE : ℚ
  VOLUME : ℚ
  LABEL : ℚ
  USER : ℚ
  ARG : ℚ
  OTHER : ℚ
deriving DecidableEq

structure MatchingSettings where
  score_weights : MatchingWeights
  thresholds : MatchingThresholds
  layer_matching : LayerMatching
  path_matching : PathMatching
  label_matching : LabelMatching
  context_matching : ContextMatching
  command_type_weights : CommandTypeWeights
deriving DecidableEq

/-- The default `settings.matching` of `config.py` (all `Field` defaults). -/
def settings_matching : MatchingSettings where
  score_weights := ⟨3/10, 4/10, 15/100, 15/100⟩
  thresholds := ⟨8/10, 9/10, 8/10, 6/10, 4/10⟩
  layer_matching := ⟨95/100, 7/10, 3/10, 7/10⟩
  path_matching := ⟨1, 8/10, 6/10, 3/10⟩
  label_matching := ⟨4/10, 3/10, 2/10, 1/10⟩
  context_matching := ⟨6/10, 4/10⟩
  command_type_weights :=
    ⟨1, 8/10, 8/10, 6/10, 4/10, 4/10, 4/10, 3/10, 3/10, 2/10, 1/10⟩

/-- `getattr(settings.matching.command_type_weights, cmd_type, ….OTHER)`. -/
def commandTypeWeight (w : CommandTypeWeights) (name : String) : ℚ :=
  if name = "RUN" then w.RUN
  else if name = "COPY" then w.COPY
  else if name = "ADD" then w.ADD
  else if name = "ENV" then w.ENV
  else if name = "WORKDIR" then w.WORKDIR
  else if name = "EXPOSE" then w.EXPOSE
  else if name = "VOLUME" then w.VOLUME
  else if name = "LABEL" then w.LABEL
  else if name = "USER" then w.USER
  else if name = "ARG" then w.ARG
  else w.OTHER

/-! ### `models.py`: image data model -/

inductive CommandType where
  | WORKDIR | ENV | LABEL | EXPOSE | USER | RUN | CMD | ENTRYPOINT
  | VOLUME | COPY | ADD | ARG | STOPSIGNAL | SHELL | UNKNOWN
deriving DecidableEq

/-- `Layer` dataclass (`created : datetime` modelled as an integer
timestamp). -/
structure Layer where
  id : String
  created : ℤ
  created_by : String
  size : ℤ
  command_type : CommandType
  package_commands : List PackageCommand
deriving DecidableEq

/-- `ImageConfig` dataclass (`env`/`labels` dicts as ordered association
lists; `exposed_ports : Set[str]` as its insertion list, compared through
`Finset`). -/
structure ImageConfig where
  env : List (String × String)
  cmd : List String
  entrypoint : List String
  working_dir : String
  exposed_ports : List String
  volumes : List String
  labels : List (String × String)
  user : String
deriving DecidableEq

structure ImageInfo where
  id : String
  tags : List String
  created : ℤ
  size : ℤ
  layers : List Layer
  config : ImageConfig
  base_image : Option String
deriving DecidableEq

/-- `DockerfileAnalysis` dataclass of `dockerfile_analyzer.py`. -/
structure DockerfileAnalysis where
  base_image : String
  stages : List String
  package_commands : List DockerInstruction
  copy_commands : List DockerInstruction
  all_instructions : List DockerInstruction
  metadata : List (String × String)
deriving DecidableEq

/-- The `details` dict stored in every `LayerMatch` (the analyzer only ever
stores these two keys; `'reason'` is never set). -/
structure MatchDetails where
  sequence_score : ℚ
  command_score : ℚ
deriving DecidableEq

structure LayerMatch where
  dockerfile_instruction : DockerInstruction
  layer_info : Option Layer
  match_score : ℚ
  match_type : String
  details : MatchDetails
deriving DecidableEq

/-- A JSON value as returned by `json.loads` inside `_match_volumes` /
`_match_metadata`.  Arrays and objects keep no payload: the analyzer only
ever inserts them into a `set`, which raises `TypeError` (unhashable)
before their content could matter. -/
inductive JVal where
  | jstr (s : String)
  | jnum (raw : String)
  | jbool (b : Bool)
  | jnull
  | jarr
  | jobj
deriving DecidableEq

structure BaseImageDetails where
  dockerfile_base : String
  image_base : Option String
  normalized_dockerfile : String
  normalized_image : Option String
deriving DecidableEq

structure UnmatchedLayer where
  instruction : String
  reason : String
deriving DecidableEq

structure SequenceAnalysis where
  total_matches : ℕ
  average_sequence_score : ℚ
  perfect_sequence_matches : ℕ
deriving DecidableEq

/-- The `metadata` dict assembled by `analyze_match` / `_match_metadata`. -/
structure MatchMetadata where
  base_image_details : BaseImageDetails
  unmatched_layers : List UnmatchedLayer
  sequence_analysis : SequenceAnalysis
  environment_matches : List (String × String)
  port_matches : List String
  volume_matches : List JVal
deriving DecidableEq

structure DockerfileMatch where
  overall_score : ℚ
  base_image_score : ℚ
  layer_score : ℚ
  metadata_score : ℚ
  context_score : ℚ
  matched_layers : List LayerMatch
  metadata : MatchMetadata
deriving DecidableEq

/-! ### `match_analyzer.py`: base image and layer matching -/

namespace DockerfileMatchAnalyzer

/-- `_normalize_image_ref`. -/
def normalize_image_ref (image_ref : String) : String :=
  let parts := pySplitChar image_ref '/'
  let ref1 :=
    if 2 ≤ parts.length ∧
        (pyContainsChar (parts.headD "") '.' ∨
          pyContainsChar (parts.headD "") ':' ∨
          parts.headD "" = "localhost") then
      pyJoin "/" parts.tail
    else image_ref
  let ref2 := if ¬pyContainsChar ref1 ':' then ref1 ++ ":latest" else ref1
  pyLower ref2

/-- `_are_image_aliases` (stubbed `TODO` in the source). -/
def are_image_aliases (_img1 _img2 : String) : Bool := false

/-- `_match_base_image`. -/
def match_base_image (dockerfile_base : String)
    (image_base : Option String) : ℚ :=
  if dockerfile_base = "" ∨ ¬optTruthy image_base then 0
  else
    let df_base := normalize_image_ref dockerfile_base
    let img_base := normalize_image_ref (image_base.getD "")
    if df_base = img_base then 1
    else if (pySplitChar df_base ':').headD "" =
        (pySplitChar img_base ':').headD "" then 8/10
    else if are_image_aliases df_base img_base then 9/10
    else 0

/-- Whitespace-run collapsing behind `re.sub(r'\s+', ' ', cmd)`; the flag
records whether the previous character was whitespace. -/
def collapseWsAux : List Char → Bool → List Char
  | [], _ => []
  | c :: rest, prevWs =>
    if isPyWs c then
      if prevWs then collapseWsAux rest true
      else ' ' :: collapseWsAux rest true
    else c :: collapseWsAux rest false

/-- `_normalize_command`: collapse whitespace, cut the comment (after the
whitespace collapse the string is one line, so `#.*$` removes everything
from the first `#`), turn backslashes into slashes, strip and upper-case. -/
def normalize_command (cmd : String) : String :=
  if cmd = "" then ""
  else
    pyUpper (pyStrip (String.mk
      (((collapseWsAux cmd.data false).takeWhile (fun c => c ≠ '#')).map
        (fun c => if c = '\\' then '/' else c))))

/-- `_compute_command_similarity`: Jaccard similarity of the token sets,
scaled by the command-type weight of the first command's leading token. -/
def compute_command_similarity (s : MatchingSettings) (cmd1 cmd2 : String) :
    ℚ :=
  let cmd1_norm := normalize_command cmd1
  let cmd2_norm := normalize_command cmd2
  let cmd_type :=
    if cmd1_norm ≠ "" then (pySplitWs cmd1_norm).headD "" else "OTHER"
  let type_weight := commandTypeWeight s.command_type_weights cmd_type
  let tokens1 := (pySplitWs cmd1_norm).toFinset
  let tokens2 := (pySplitWs cmd2_norm).toFinset
  if tokens1 = ∅ ∨ tokens2 = ∅ then 0
  else
    ((tokens1 ∩ tokens2).card : ℚ) / ((tokens1 ∪ tokens2).card : ℚ) *
      type_weight

/-- The committed `LayerMatch` built in the loop body of
`_match_layers_sequential` (`score` is the command similarity of the
pair). -/
def commitMatch (s : MatchingSettings) (idx : ℕ)
    (instruction : DockerInstruction) (layers : List Layer)
    (layer : Layer) (score : ℚ) : LayerMatch :=
  { dockerfile_instruction := instruction
    layer_info := some layer
    match_score := score
    match_type :=
      if s.layer_matching.exact_match_threshold ≤ score then "exact"
      else "partial"
    details :=
      ⟨1 - |(idx : ℚ) - (layers.indexOf layer : ℚ)| /
        (layers.length : ℚ), score⟩ }

/-- One step of the inner `for layer in layers` loop of
`_match_layers_sequential`: commit when `score >= best_score`. -/
def bestStep (s : MatchingSettings) (idx : ℕ)
    (instruction : DockerInstruction) (layers : List Layer)
    (st : ℚ × Option LayerMatch) (layer : Layer) :
    ℚ × Option LayerMatch :=
  if st.1 ≤ compute_command_similarity s instruction.content
      layer.created_by then
    (compute_command_similarity s instruction.content layer.created_by,
      some (commitMatch s idx instruction layers layer
        (compute_command_similarity s instruction.content
          layer.created_by)))
  else st

/-- The inner `for layer in layers` loop of `_match_layers_sequential`:
fold with state `(best_score, best_match)`, starting from the partial-match
threshold and no match. -/
def bestLoop (s : MatchingSettings) (idx : ℕ)
    (instruction : DockerInstruction) (layers : List Layer) :
    ℚ × Option LayerMatch :=
  layers.foldl (bestStep s idx instruction layers)
    (s.layer_matching.partial_match_threshold, Option.none)

/-- The `LayerMatch` appended for the instruction at index `idx`. -/
def matchOne (s : MatchingSettings) (layers : List Layer)
    (p : ℕ × DockerInstruction) : LayerMatch :=
  match (bestLoop s p.1 p.2 layers).2 with
  | some best_match => best_match
  | Option.none => ⟨p.2, Option.none, 0, "none", ⟨0, 0⟩⟩

/-- `_match_layers_sequential`. -/
def match_layers_sequential (s : MatchingSettings)
    (instructions : List DockerInstruction) (layers : List Layer) :
    List LayerMatch :=
  instructions.enum.map (matchOne s layers)

/-- `_compute_layer_score` (the Python parameter `matches` is a Lean
keyword, so it is named `ms` here). -/
def compute_layer_score (s : MatchingSettings)
    (ms : List LayerMatch) : ℚ :=
  if ms = [] then 0
  else
    (ms.enum.map
      (fun p =>
        p.2.match_score * s.layer_matching.command_weight +
          (1 - (p.1 : ℚ) / (ms.length : ℚ)) *
            s.layer_matching.sequence_weight)).sum /
      (ms.length : ℚ)

end DockerfileMatchAnalyzer

/-! ### A small JSON reader (model of `json.loads` for the volume paths) -/

def isJsonWs (c : Char) : Bool :=
  c = ' ' || c = '\t' || c = '\n' || c = '\x0d'

def isWordChar (c : Char) : Bool := c.isAlpha || c.isDigit || c = '_'

/-- Decode a JSON string body after the opening quote. -/
def jStrBody : List Char → Option (String × List Char)
  | [] => Option.none
  | '"' :: rest => some ("", rest)
  | '\\' :: e :: rest =>
    let dec : Option Char :=
      if e = '"' then some '"'
      else if e = '\\' then some '\\'
      else if e = '/' then some '/'
      else if e = 'b' then some '\x08'
      else if e = 'f' then some '\x0c'
      else if e = 'n' then some '\n'
      else if e = 'r' then some '\x0d'
      else if e = 't' then some '\t'
      else Option.none
    match dec with
    | some c =>
      (jStrBody rest).map (fun p => (String.mk (c :: p.1.data), p.2))
    | Option.none => Option.none
  | c :: rest =>
    if c.toNat < 32 then Option.none
    else (jStrBody rest).map (fun p => (String.mk (c :: p.1.data), p.2))

/-- Lex a JSON number, returning its raw text. -/
def jNum (l : List Char) : Option (String × List Char) :=
  let (sign, l1) :=
    match l with
    | '-' :: rest => (['-'], rest)
    | _ => (([] : List Char), l)
  let intPart := l1.takeWhile Char.isDigit
  let l2 := l1.dropWhile Char.isDigit
  if intPart = [] then Option.none
  else
    let (frac, l3) :=
      match l2 with
      | '.' :: rest =>
        if (rest.takeWhile Char.isDigit) = [] then (([] : List Char), l2)
        else ('.' :: rest.takeWhile Char.isDigit,
          rest.dropWhile Char.isDigit)
      | _ => (([] : List Char), l2)
    let (ex, l4) :=
      match l3 with
      | e :: rest =>
        if e = 'e' ∨ e = 'E' then
          match rest with
          | s :: rest' =>
            if s = '+' ∨ s = '-' then
              if (rest'.takeWhile Char.isDigit) = [] then
                (([] : List Char), l3)
              else (e :: s :: rest'.takeWhile Char.isDigit,
                rest'.dropWhile Char.isDigit)
            else if s.isDigit then
              (e :: rest.takeWhile Char.isDigit,
                rest.dropWhile Char.isDigit)
            else (([] : List Char), l3)
          | [] => (([] : List Char), l3)
        else (([] : List Char), l3)
      | [] => (([] : List Char), l3)
    some (String.mk (sign ++ intPart ++ frac ++ ex), l4)

mutual
/-- Parse one JSON value. -/
def jVal (fuel : ℕ) (l : List Char) : Option (JVal × List Char) :=
  match fuel with
  | 0 => Option.none
  | fuel + 1 =>
    match l.dropWhile isJsonWs with
    | '"' :: rest => (jStrBody rest).map (fun p => (JVal.jstr p.1, p.2))
    | '[' :: rest => (jElems fuel rest true).map (fun p => (JVal.jarr, p))
    | '{' :: rest => (jMembers fuel rest true).map (fun p => (JVal.jobj, p))
    | 't' :: 'r' :: 'u' :: 'e' :: rest => some (JVal.jbool true, rest)
    | 'f' :: 'a' :: 'l' :: 's' :: 'e' :: rest => some (JVal.jbool false, rest)
    | 'n' :: 'u' :: 'l' :: 'l' :: rest => some (JVal.jnull, rest)
    | rest => (jNum rest).map (fun p => (JVal.jnum p.1, p.2))

/-- Parse array elements after `[`, returning the remainder after `]`. -/
def jElems (fuel : ℕ) (l : List Char) (first : Bool) :
    Option (List Char) :=
  match fuel with
  | 0 => Option.none
  | fuel + 1 =>
    match l.dropWhile isJsonWs with
    | ']' :: rest => if first then some rest else Option.none
    | l' =>
      match jVal fuel l' with
      | some (_, rest) =>
        match rest.dropWhile isJsonWs with
        | ',' :: rest' => jElems fuel rest' false |>.orElse
            (fun _ => Option.none)
        | ']' :: rest' => some rest'
        | _ => Option.none
      | Option.none => Option.none

/-- Parse object members after `{`. -/
def jMembers (fuel : ℕ) (l : List Char) (first : Bool) :
    Option (List Char) :=
  match fuel with
  | 0 => Option.none
  | fuel + 1 =>
    match l.dropWhile isJsonWs with
    | '}' :: rest => if first then some rest else Option.none
    | '"' :: rest =>
      match jStrBody rest with
      | some (_, rest1) =>
        match rest1.dropWhile isJsonWs with
        | ':' :: rest2 =>
          match jVal fuel rest2 with
          | some (_, rest3) =>
            match rest3.dropWhile isJsonWs with
            | ',' :: rest4 => jMembers fuel rest4 false
            | '}' :: rest4 => some rest4
            | _ => Option.none
          | Option.none => Option.none
        | _ => Option.none
      | Option.none => Option.none
    | _ => Option.none
end

/-- The elements of a top-level JSON array, with their values. -/
def jArrElems (fuel : ℕ) (l : List Char) (first : Bool) :
    Option (List JVal × List Char) :=
  match fuel with
  | 0 => Option.none
  | fuel + 1 =>
    match l.dropWhile isJsonWs with
    | ']' :: rest => if first then some ([], rest) else Option.none
    | l' =>
      match jVal fuel l' with
      | some (v, rest) =>
        match rest.dropWhile isJsonWs with
        | ',' :: rest' =>
          (jArrElems fuel rest' false).map (fun p => (v :: p.1, p.2))
        | ']' :: rest' => some ([v], rest')
        | _ => Option.none
      | Option.none => Option.none

/-- `json.loads` for the analyzer's volume bodies.  Both call sites guard on
`content.strip().startswith('[')`, so a successful parse is a top-level
array; every failure is a `JSONDecodeError` (`Except.error ()`). -/
def jsonLoads (s : String) : Except Unit (List JVal) :=
  match s.data.dropWhile isJsonWs with
  | '[' :: rest =>
    match jArrElems (rest.length + 1) rest true with
    | some (vs, rest') =>
      if rest'.dropWhile isJsonWs = [] then Except.ok vs
      else Except.error ()
    | Option.none => Except.error ()
  | _ => Except.error ()

/-! ### Port and volume token scanners (`re.findall`) -/

/-- The optional `/tcp` or `/udp` of the port pattern, with its closing
word boundary. -/
def portProto (l : List Char) : Option (List Char × List Char) :=
  match l with
  | '/' :: 't' :: 'c' :: 'p' :: rest =>
    if isWordChar (rest.headD ' ') then Option.none
    else some (['/', 't', 'c', 'p'], rest)
  | '/' :: 'u' :: 'd' :: 'p' :: rest =>
    if isWordChar (rest.headD ' ') then Option.none
    else some (['/', 'u', 'd', 'p'], rest)
  | _ => Option.none

/-- `re.findall(r'\b\d+(?:/(?:tcp|udp))?\b', s)`: maximal digit runs opening
on a word boundary, optionally followed by `/tcp` or `/udp`, closing on a
word boundary.  `prevWord` records whether the previous character is a word
character; `fuel` bounds the scan. -/
def portFindAux (fuel : ℕ) (l : List Char) (prevWord : Bool) :
    List String :=
  match fuel with
  | 0 => []
  | fuel + 1 =>
    match l with
    | [] => []
    | c :: rest =>
      if c.isDigit ∧ ¬prevWord then
        let digits := (c :: rest).takeWhile Char.isDigit
        let after := (c :: rest).dropWhile Char.isDigit
        match portProto after with
        | some (proto, rest') =>
          String.mk (digits ++ proto) :: portFindAux fuel rest' true
        | Option.none =>
          if isWordChar (after.headD ' ') ∧ after ≠ [] then
            portFindAux fuel rest true
          else String.mk digits :: portFindAux fuel after true
      else portFindAux fuel rest (isWordChar c)

def portFindall (s : String) : List String :=
  portFindAux (s.data.length + 1) s.data false

/-- `re.findall(r'(?:\"([^\"]+)\"|(\S+))', s)` with `v[0] or v[1]`: a quoted
run (which may contain spaces) or a maximal non-whitespace run. -/
def volTokensAux (fuel : ℕ) (l : List Char) : List String :=
  match fuel with
  | 0 => []
  | fuel + 1 =>
    match l with
    | [] => []
    | c :: rest =>
      if c = '"' then
        let inner := rest.takeWhile (fun d => d ≠ '"')
        match rest.dropWhile (fun d => d ≠ '"') with
        | '"' :: rest' =>
          if inner ≠ [] then String.mk inner :: volTokensAux fuel rest'
          else
            -- `\"\"`: the quoted branch needs ≥ 1 char, so `\S+` matches
            let tok := (c :: rest).takeWhile (fun d => !isPyWs d)
            String.mk tok ::
              volTokensAux fuel ((c :: rest).dropWhile (fun d => !isPyWs d))
        | _ =>
          let tok := (c :: rest).takeWhile (fun d => !isPyWs d)
          String.mk tok ::
            volTokensAux fuel ((c :: rest).dropWhile (fun d => !isPyWs d))
      else if ¬isPyWs c then
        let tok := (c :: rest).takeWhile (fun d => !isPyWs d)
        String.mk tok ::
          volTokensAux fuel ((c :: rest).dropWhile (fun d => !isPyWs d))
      else volTokensAux fuel rest

def volTokens (s : String) : List String :=
  volTokensAux (s.data.length + 1) s.data

/-! ### `pathlib.PurePosixPath` model -/

/-- A POSIX path, normalized as `pathlib` does: empty and `"."` components
dropped (the rare `//` root special case is not modelled). -/
structure PyPath where
  absolute : Bool
  parts : List String
deriving DecidableEq

def mkPath (s : String) : PyPath :=
  ⟨pyStartsWith s "/",
    (pySplitChar s '/').filter (fun comp => comp ≠ "" ∧ comp ≠ ".")⟩

/-- `Path.parent` (`Path('a').parent == Path('.')`,
`Path('/').parent == Path('/')`). -/
def pathParent (p : PyPath) : PyPath :=
  if p.parts = [] then p else ⟨p.absolute, p.parts.dropLast⟩

/-- `Path.name`. -/
def pathNameOf (p : PyPath) : String := p.parts.getLastD ""

/-- `Path.suffix`. -/
def pathSuffixOf (p : PyPath) : String :=
  let nd := (pathNameOf p).data
  let tailLen := (nd.reverse.takeWhile (fun c => c ≠ '.')).length
  if tailLen = nd.length then ""
  else
    let i := nd.length - 1 - tailLen
    if 0 < i ∧ i < nd.length - 1 then String.mk (nd.drop i) else ""

/-- `str(Path(v))` for a string `v`. -/
def strPath (s : String) : String :=
  let p := mkPath s
  if p.parts = [] then (if p.absolute then "/" else ".")
  else (if p.absolute then "/" else "") ++ pyJoin "/" p.parts

/-- `.strip('"\'')`: strip any run of double or single quotes from both
ends. -/
def stripQuotes (s : String) : String :=
  String.mk (((s.data.dropWhile
    (fun c => c = '"' ∨ c = '\'')).reverse.dropWhile
    (fun c => c = '"' ∨ c = '\'')).reverse)

namespace DockerfileMatchAnalyzer

/-! ### `match_analyzer.py`: metadata facet -/

/-- `_compare_versions`: digit runs compared as strings, matching prefix
over the longer run count. -/
def digitRunsAux : List Char → List Char → List (List Char)
  | [], cur => if cur = [] then [] else [cur.reverse]
  | c :: rest, cur =>
    if c.isDigit then digitRunsAux rest (c :: cur)
    else if cur = [] then digitRunsAux rest []
    else cur.reverse :: digitRunsAux rest []

def countPrefixMatches : List (List Char) → List (List Char) → ℕ
  | a :: as, b :: bs => if a = b then countPrefixMatches as bs + 1 else 0
  | _, _ => 0

def compare_versions (version1 version2 : String) : ℚ :=
  let v1_parts := digitRunsAux version1.data []
  let v2_parts := digitRunsAux version2.data []
  if v1_parts = [] ∨ v2_parts = [] then 0
  else
    (countPrefixMatches v1_parts v2_parts : ℚ) /
      (max v1_parts.length v2_parts.length : ℚ)

/-- `_compute_token_similarity`. -/
def compute_token_similarity (cmd1 cmd2 : String) : ℚ :=
  let tokens1 := (pySplitWs cmd1).toFinset
  let tokens2 := (pySplitWs cmd2).toFinset
  if tokens1 = ∅ ∨ tokens2 = ∅ then 0
  else ((tokens1 ∩ tokens2).card : ℚ) / ((tokens1 ∪ tokens2).card : ℚ)

/-- `_match_labels`.  When a Dockerfile label is present in the image
labels, the loop body evaluates
`settings.matching.label_matching.get(label.lower(), …)`; `LabelMatching`
is a pydantic `BaseModel`, which has no `get` method, so that line raises
`AttributeError` and the rest of the loop body is unreachable.  Otherwise
the loop finishes with `scores == []` and the facet returns `0.0`. -/
def match_labels (dockerfile_labels image_labels : List (String × String)) :
    Except String ℚ :=
  if dockerfile_labels = [] ∨ image_labels = [] then Except.ok 0
  else if dockerfile_labels.any
      (fun p => (image_labels.lookup p.1).isSome) then
    Except.error "AttributeError: 'LabelMatching' object has no attribute 'get'"
  else Except.ok 0

/-- `_match_ports`. -/
def match_ports (instructions : List DockerInstruction)
    (image_ports : List String) : ℚ :=
  let dockerfile_ports :=
    ((instructions.filter (fun i => i.type = "EXPOSE")).flatMap
      (fun i => portFindall i.content)).toFinset
  if dockerfile_ports = ∅ then (if image_ports = [] then 1 else 0)
  else
    let dockerfile_ports' := dockerfile_ports.image
      (fun p => if pyContainsChar p '/' then p else p ++ "/tcp")
    let image_ports' := image_ports.toFinset
    ((dockerfile_ports' ∩ image_ports').card : ℚ) /
      (max dockerfile_ports'.card image_ports'.card : ℚ)

/-- The volume tokens contributed by one `VOLUME` instruction (JSON array
body when it starts with `[` — a `JSONDecodeError` contributes nothing —
and the quoted/plain token scan otherwise). -/
def volumeValsOf (i : DockerInstruction) : List JVal :=
  if pyStartsWith (pyStrip i.content) "[" then
    match jsonLoads i.content with
    | Except.ok vols => vols
    | Except.error _ => []
  else (volTokens i.content).map JVal.jstr

/-- `_match_volumes`.  Inserting an unhashable JSON value (array/object)
into the `set` raises `TypeError`; normalizing a non-string through
`Path(v)` also raises `TypeError`. -/
def match_volumes (instructions : List DockerInstruction)
    (image_volumes : List String) : Except String ℚ :=
  let vals := (instructions.filter (fun i => i.type = "VOLUME")).flatMap
    volumeValsOf
  if vals.any (fun v => v = JVal.jarr ∨ v = JVal.jobj) then
    Except.error "TypeError: unhashable type"
  else
    let dockerfile_volumes := vals.toFinset
    if dockerfile_volumes = ∅ then
      Except.ok (if image_volumes = [] then 1 else 0)
    else if vals.any
        (fun v => match v with | JVal.jstr _ => false | _ => true) then
      Except.error "TypeError: argument should be a str"
    else
      let dfn := dockerfile_volumes.image
        (fun v => match v with | JVal.jstr s => strPath s | _ => "")
      let img := (image_volumes.map strPath).toFinset
      Except.ok (((dfn ∩ img).card : ℚ) / (max dfn.card img.card : ℚ))

/-- The `ENV` postprocessing of `_match_metadata`: split on the first `=`,
strip the key, strip whitespace then quotes from the value, and record the
pair when the key is among the image's environment keys. -/
def envMatches (instructions : List DockerInstruction)
    (env : List (String × String)) : List (String × String) :=
  instructions.foldl
    (fun acc i =>
      if i.type = "ENV" then
        match pySplitOnce i.content '=' with
        | [k, v] =>
          if (env.lookup (pyStrip k)).isSome then
            dictSet acc (pyStrip k) (stripQuotes (pyStrip v))
          else acc
        | _ => acc
      else acc)
    []

/-- The label contribution to the metadata `scores` list (raising when
`_match_labels` raises). -/
def labelScoresE (s : MatchingSettings) (dockerfile : DockerfileAnalysis)
    (image : ImageInfo) : Except String (List ℚ) :=
  if dockerfile.metadata ≠ [] ∧ image.config.labels ≠ [] then
    Except.map
      (fun label_score => [label_score * s.label_matching.maintainer])
      (match_labels dockerfile.metadata image.config.labels)
  else Except.ok []

/-- The exposed-port contribution to the metadata `scores` list. -/
def portScoresOf (dockerfile : DockerfileAnalysis) (image : ImageInfo) :
    List ℚ :=
  if image.config.exposed_ports ≠ [] then
    [match_ports dockerfile.all_instructions image.config.exposed_ports *
      (3/10)]
  else []

/-- The volume contribution to the metadata `scores` list (raising when
`_match_volumes` raises). -/
def volumeScoresE (dockerfile : DockerfileAnalysis) (image : ImageInfo) :
    Except String (List ℚ) :=
  if image.config.volumes ≠ [] then
    Except.map (fun volume_score => [volume_score * (3/10)])
      (match_volumes dockerfile.all_instructions image.config.volumes)
  else Except.ok []

/-- The `port_matches` metadata collected alongside the port score. -/
def portMatchesOf (dockerfile : DockerfileAnalysis) (image : ImageInfo) :
    List String :=
  if image.config.exposed_ports ≠ [] then
    (dockerfile.all_instructions.filter
      (fun i => i.type = "EXPOSE")).flatMap (fun i => portFindall i.content)
  else []

/-- The `volume_matches` metadata collected alongside the volume score. -/
def volumeMatchesOf (dockerfile : DockerfileAnalysis) (image : ImageInfo) :
    List JVal :=
  if image.config.volumes ≠ [] then
    (dockerfile.all_instructions.filter
      (fun i => i.type = "VOLUME")).flatMap volumeValsOf
  else []

/-- `_match_metadata`: returns the metadata score and the collected
`environment_matches` / `port_matches` / `volume_matches`.  The label facet
is evaluated first and the volume facet last, so a label `AttributeError`
preempts a volume `TypeError`, as in the source. -/
def match_metadata (s : MatchingSettings) (dockerfile : DockerfileAnalysis)
    (image : ImageInfo) :
    Except String (ℚ × List (String × String) × List String × List JVal) :=
  match labelScoresE s dockerfile image with
  | Except.error e => Except.error e
  | Except.ok scores1 =>
    match volumeScoresE dockerfile image with
    | Except.error e => Except.error e
    | Except.ok volScores =>
      Except.ok
        (if scores1 ++ portScoresOf dockerfile image ++ volScores = []
          then 0
          else (scores1 ++ portScoresOf dockerfile image ++ volScores).sum /
            ((scores1 ++ portScoresOf dockerfile image ++
              volScores).length : ℚ),
          envMatches dockerfile.all_instructions image.config.env,
          portMatchesOf dockerfile image,
          volumeMatchesOf dockerfile image)

/-! ### `match_analyzer.py`: build context and report assembly -/

/-- `_extract_paths`: drop the command name and the destination. -/
def extract_paths (cmd : String) : List String :=
  let parts := pySplitWs cmd
  if parts.length < 3 then [] else parts.tail.dropLast

/-- `_compute_path_similarity`. -/
def compute_path_similarity (s : MatchingSettings) (cmd1 cmd2 : String) :
    ℚ :=
  let paths1 := extract_paths cmd1
  let paths2 := extract_paths cmd2
  if paths1 = [] ∨ paths2 = [] then 0
  else
    ((paths1.map
      (fun p1 =>
        paths2.foldl
          (fun best p2 =>
            if mkPath p1 = mkPath p2 then
              max best s.path_matching.exact_path_score
            else if pathParent (mkPath p1) = pathParent (mkPath p2) then
              max best s.path_matching.parent_path_score
            else if pathNameOf (mkPath p1) = pathNameOf (mkPath p2) then
              max best s.path_matching.filename_only_score
            else if pathSuffixOf (mkPath p1) = pathSuffixOf (mkPath p2) then
              max best s.path_matching.extension_match_score
            else best)
          0)).sum) / (paths1.length : ℚ)

/-- `_match_build_context`. -/
def match_build_context (s : MatchingSettings)
    (copy_commands : List DockerInstruction)
    (layer_matches : List LayerMatch) : ℚ :=
  if copy_commands = [] then 1
  else
    ((copy_commands.map
      (fun cmd =>
        layer_matches.foldl
          (fun best m =>
            if m.dockerfile_instruction = cmd then
              max best (compute_path_similarity s cmd.content
                (match m.layer_info with
                 | some l => l.created_by
                 | Option.none => ""))
            else best)
          0)).sum) / (copy_commands.length : ℚ)

/-- `_get_base_image_details`. -/
def get_base_image_details (dockerfile_base : String)
    (image_base : Option String) : BaseImageDetails :=
  ⟨dockerfile_base, image_base, normalize_image_ref dockerfile_base,
    image_base.map normalize_image_ref⟩

/-- `_get_unmatched_layers` (no match ever stores a `'reason'` detail, so
the reported reason is always `"Unknown"`). -/
def get_unmatched_layers (ms : List LayerMatch) : List UnmatchedLayer :=
  (ms.filter (fun m => m.match_type = "none")).map
    (fun m => ⟨m.dockerfile_instruction.content, "Unknown"⟩)

/-- `_analyze_sequence_matches`. -/
def analyze_sequence_matches (ms : List LayerMatch) : SequenceAnalysis :=
  let good := ms.filter (fun m => m.match_type ≠ "none")
  let sequence_scores := good.map (fun m => m.details.sequence_score)
  ⟨good.length,
    if sequence_scores = [] then 0
    else sequence_scores.sum / (sequence_scores.length : ℚ),
    (sequence_scores.filter (fun x => (95 : ℚ)/100 ≤ x)).length⟩

/-- `analyze_match`: the top-level matcher.  Any exception from a facet
(the label `AttributeError`, the volume `TypeError`) is caught and
re-raised as `ValueError("Match analysis failed: …")`. -/
def analyze_match (s : MatchingSettings) (dockerfile : DockerfileAnalysis)
    (image : ImageInfo) : Except String DockerfileMatch :=
  let base_image_score := match_base_image dockerfile.base_image
    image.base_image
  let layer_matches := match_layers_sequential s
    dockerfile.all_instructions image.layers
  let layer_score := compute_layer_score s layer_matches
  match match_metadata s dockerfile image with
  | Except.error e => Except.error ("Match analysis failed: " ++ e)
  | Except.ok (metadata_score, environment_matches, port_matches,
      volume_matches) =>
    let context_score := match_build_context s dockerfile.copy_commands
      layer_matches
    let overall_score :=
      base_image_score * s.score_weights.base_image +
        layer_score * s.score_weights.layer_match +
        metadata_score * s.score_weights.metadata +
        context_score * s.score_weights.context
    Except.ok
      { overall_score := overall_score
        base_image_score := base_image_score
        layer_score := layer_score
        metadata_score := metadata_score
        context_score := context_score
        matched_layers := layer_matches
        metadata :=
          ⟨get_base_image_details dockerfile.base_image image.base_image,
            get_unmatched_layers layer_matches,
            analyze_sequence_matches layer_matches,
            environment_matches, port_matches, volume_matches⟩ }

end DockerfileMatchAnalyzer

/-! ### Concrete inputs shared by the match-engine claims -/

def instrFROM : DockerInstruction :=
  ⟨"FROM", "FROM python:3.9", 1, ["python:3.9"]⟩

def instrENV : DockerInstruction := ⟨"ENV", "ENV A=b", 2, ["A=b"]⟩

def instrRUN : DockerInstruction :=
  ⟨"RUN", "RUN apt-get install nginx", 2, ["apt-get install nginx"]⟩

/-- An empty image configuration. -/
def emptyConfig : ImageConfig := ⟨[], [], [], "", [], [], [], ""⟩

def dfEx : DockerfileAnalysis :=
  ⟨"python:3.9", [], [], [], [instrFROM, instrENV], []⟩

def imgEx : ImageInfo :=
  ⟨"sha256:1", [], 0, 0, [], emptyConfig, some "python:3.9"⟩

/-- A Dockerfile analysis and image that share the `maintainer` label. -/
def dfLbl : DockerfileAnalysis :=
  ⟨"python:3.9", [], [], [], [instrFROM], [("maintainer", "alice")]⟩

def imgLbl : ImageInfo :=
  ⟨"sha256:2", [], 0, 0, [],
    ⟨[], [], [], "", [], [], [("maintainer", "alice")], ""⟩,
    some "python:3.9"⟩

/-- A placeholder report (only used as the `getD` default below). -/
def junkMatch : DockerfileMatch :=
  ⟨0, 0, 0, 0, 0, [],
    ⟨⟨"", Option.none, "", Option.none⟩, [], ⟨0, 0, 0⟩, [], [], []⟩⟩

/-- The report `analyze_match` produces on the concrete example inputs. -/
def rEx : DockerfileMatch :=
  (DockerfileMatchAnalyzer.analyze_match settings_matching dfEx
    imgEx).toOption.getD junkMatch

/-! ### Claim C6 -/

open DockerfileMatchAnalyzer in
/-- C6: contrary to the spec's "facet scorers never raise", the label facet
raises whenever the Dockerfile and the image share a label key: the loop in
`_match_labels` evaluates `settings.matching.label_matching.get(...)`, and
`LabelMatching` is a pydantic `BaseModel` with no `get` method, so an
`AttributeError` escapes the facet and `analyze_match` fails with a
`ValueError` instead of returning a report. -/
theorem C6_label_facet_raises :
    DockerfileMatchAnalyzer.analyze_match settings_matching dfLbl imgLbl =
      Except.error
        "Match analysis failed: AttributeError: 'LabelMatching' object has no attribute 'get'" := by
  with_unfolding_all rfl

/-! ### Claim C5 -/

/-- A generic fold-invariant preservation lemma. -/
theorem foldlInv {α β : Type} (f : β → α → β) (P : β → Prop)
    (h : ∀ st a, P st → P (f st a)) :
    ∀ (l : List α) (st : β), P st → P (l.foldl f st) := by
  intro l
  induction l with
  | nil => intro st hst; exact hst
  | cons a l ih =>
    intro st hst
    exact ih (f st a) (h st a hst)

namespace DockerfileMatchAnalyzer

theorem bestLoop_instruction {s : MatchingSettings} {idx : ℕ}
    {instr : DockerInstruction} {layers : List Layer} {m : LayerMatch}
    (h : (bestLoop s idx instr layers).2 = some m) :
    m.dockerfile_instruction = instr := by
  have := foldlInv (bestStep s idx instr layers)
    (fun st : ℚ × Option LayerMatch =>
      ∀ m', st.2 = some m' → m'.dockerfile_instruction = instr)
    (by
      intro st layer hst m' hm'
      unfold bestStep at hm'
      by_cases hc : st.1 ≤ compute_command_similarity s instr.content
          layer.created_by
      · rw [if_pos hc] at hm'
        cases Option.some.inj hm'
        rfl
      · rw [if_neg hc] at hm'
        exact hst m' hm')
    layers (s.layer_matching.partial_match_threshold, Option.none)
    (by intro m' hm'; exact absurd hm' (by simp))
  exact this m h

theorem matchOne_instruction (s : MatchingSettings) (layers : List Layer)
    (p : ℕ × DockerInstruction) :
    (matchOne s layers p).dockerfile_instruction = p.2 := by
  unfold matchOne
  cases h : (bestLoop s p.1 p.2 layers).2 with
  | some bm => exact bestLoop_instruction h
  | none => rfl

end DockerfileMatchAnalyzer

open DockerfileMatchAnalyzer in
/-- C5 counterexample: `analyze_match` hands `all_instructions` to the layer
aligner without any kind filter, so the produced layer-match list pairs the
`FROM` and `ENV` instructions too — kinds outside the claimed
`{RUN, COPY, ADD}` set appear in it. -/
theorem C5_counterexample :
    (DockerfileMatchAnalyzer.analyze_match settings_matching dfEx
        imgEx).toOption.map
      (fun r => r.matched_layers.map
        (fun m => m.dockerfile_instruction.type)) =
      some ["FROM", "ENV"] ∧
    ("ENV" : String) ∉ (["RUN", "COPY", "ADD"] : List String) :=
  ⟨by with_unfolding_all rfl, by decide⟩

open DockerfileMatchAnalyzer in
/-- C5 (amended): the layer aligner considers every Dockerfile instruction,
of any kind: the produced layer-match list pairs exactly the input
instructions, in order, with one entry per instruction. -/
theorem C5_aligner_covers_all_instructions (s : MatchingSettings)
    (instructions : List DockerInstruction) (layers : List Layer) :
    (match_layers_sequential s instructions layers).map
      (fun m => m.dockerfile_instruction) = instructions := by
  unfold match_layers_sequential
  rw [List.map_map]
  have hfun :
      ((fun m : LayerMatch => m.dockerfile_instruction) ∘
        matchOne s layers) =
      (Prod.snd : ℕ × DockerInstruction → DockerInstruction) := by
    funext p
    exact matchOne_instruction s layers p
  rw [hfun, List.enum_map_snd]

/-! ### Claim C4: the threshold-commit behaviour of the aligner -/

namespace DockerfileMatchAnalyzer

/-- What holds of the loop state `(best_score, best_match)` at every point
of the inner loop: a committed match carries the running best score, which
is at least the partial-match threshold, has a non-`none` type, pairs the
instruction under consideration, and points at a layer achieving that
score. -/
def loopPost (s : MatchingSettings) (instr : DockerInstruction)
    (layersFull : List Layer) (st : ℚ × Option LayerMatch) : Prop :=
  (st.2 = Option.none →
    st.1 = s.layer_matching.partial_match_threshold) ∧
  (∀ m, st.2 = some m →
    m.match_score = st.1 ∧
    s.layer_matching.partial_match_threshold ≤ st.1 ∧
    m.match_type ≠ "none" ∧
    m.dockerfile_instruction = instr ∧
    ∃ l ∈ layersFull, m.layer_info = some l ∧
      compute_command_similarity s instr.content l.created_by = st.1)

theorem loopPost_threshold_le {s : MatchingSettings}
    {instr : DockerInstruction} {layersFull : List Layer}
    {st : ℚ × Option LayerMatch} (h : loopPost s instr layersFull st) :
    s.layer_matching.partial_match_threshold ≤ st.1 := by
  cases hst : st.2 with
  | none => exact le_of_eq (h.1 hst).symm
  | some m => exact (h.2 m hst).2.1

theorem bestLoop_main (s : MatchingSettings) (idx : ℕ)
    (instr : DockerInstruction) (layersFull : List Layer) :
    ∀ (rest : List Layer) (st : ℚ × Option LayerMatch),
      (∀ l ∈ rest, l ∈ layersFull) →
      loopPost s instr layersFull st →
      loopPost s instr layersFull
          (rest.foldl (bestStep s idx instr layersFull) st) ∧
        st.1 ≤ (rest.foldl (bestStep s idx instr layersFull) st).1 ∧
        (∀ l ∈ rest,
          compute_command_similarity s instr.content l.created_by ≤
            (rest.foldl (bestStep s idx instr layersFull) st).1) ∧
        ((rest.foldl (bestStep s idx instr layersFull) st).1 = st.1 ∨
          ∃ l ∈ rest,
            (rest.foldl (bestStep s idx instr layersFull) st).1 =
              compute_command_similarity s instr.content l.created_by) ∧
        (st.2 ≠ Option.none →
          (rest.foldl (bestStep s idx instr layersFull) st).2 ≠
            Option.none) ∧
        ((∃ l ∈ rest, st.1 ≤
            compute_command_similarity s instr.content l.created_by) →
          (rest.foldl (bestStep s idx instr layersFull) st).2 ≠
            Option.none) := by
  intro rest
  induction rest with
  | nil =>
    intro st _ hpost
    refine ⟨hpost, le_refl _, by simp, Or.inl rfl, fun h => h, ?_⟩
    rintro ⟨l, hl, -⟩
    exact absurd hl (by simp)
  | cons a rest ih =>
    intro st hsub hpost
    have hsub' : ∀ l ∈ rest, l ∈ layersFull :=
      fun l hl => hsub l (List.mem_cons_of_mem a hl)
    have hamem : a ∈ layersFull := hsub a (List.mem_cons_self a rest)
    by_cases hc : st.1 ≤ compute_command_similarity s instr.content
        a.created_by
    · -- the commit step fires
      have hstep : bestStep s idx instr layersFull st a =
          (compute_command_similarity s instr.content a.created_by,
            some (commitMatch s idx instr layersFull a
              (compute_command_similarity s instr.content a.created_by))) := by
        unfold bestStep
        rw [if_pos hc]
      have hpost1 : loopPost s instr layersFull
          (bestStep s idx instr layersFull st a) := by
        rw [hstep]
        constructor
        · intro hx
          exact absurd hx (by simp)
        · intro m hm
          cases Option.some.inj hm
          refine ⟨rfl, le_trans (loopPost_threshold_le hpost) hc, ?_, rfl,
            a, hamem, rfl, rfl⟩
          unfold commitMatch
          by_cases he : s.layer_matching.exact_match_threshold ≤
              compute_command_similarity s instr.content a.created_by
          · rw [if_pos he]
            show ("exact" : String) ≠ "none"
            decide
          · rw [if_neg he]
            show ("partial" : String) ≠ "none"
            decide
      have hmain := ih (bestStep s idx instr layersFull st a) hsub' hpost1
      rw [List.foldl_cons]
      refine ⟨hmain.1, ?_, ?_, ?_, ?_, ?_⟩
      · calc st.1 ≤ compute_command_similarity s instr.content
              a.created_by := hc
          _ = (bestStep s idx instr layersFull st a).1 := by rw [hstep]
          _ ≤ _ := hmain.2.1
      · intro l hl
        rcases List.mem_cons.mp hl with rfl | hl'
        · calc compute_command_similarity s instr.content l.created_by
              = (bestStep s idx instr layersFull st l).1 := by rw [hstep]
            _ ≤ _ := hmain.2.1
        · exact hmain.2.2.1 l hl'
      · rcases hmain.2.2.2.1 with heq | ⟨l, hl, heq⟩
        · refine Or.inr ⟨a, List.mem_cons_self a rest, ?_⟩
          rw [heq, hstep]
        · exact Or.inr ⟨l, List.mem_cons_of_mem a hl, heq⟩
      · intro _
        apply hmain.2.2.2.2.1
        rw [hstep]
        simp
      · intro _
        apply hmain.2.2.2.2.1
        rw [hstep]
        simp
    · -- no commit: the state is unchanged
      have hstep : bestStep s idx instr layersFull st a = st := by
        unfold bestStep
        rw [if_neg hc]
      have hmain := ih st hsub' hpost
      rw [List.foldl_cons, hstep]
      refine ⟨hmain.1, hmain.2.1, ?_, ?_, hmain.2.2.2.2.1, ?_⟩
      · intro l hl
        rcases List.mem_cons.mp hl with rfl | hl'
        · exact le_trans (le_of_not_le hc) hmain.2.1
        · exact hmain.2.2.1 l hl'
      · rcases hmain.2.2.2.1 with heq | ⟨l, hl, heq⟩
        · exact Or.inl heq
        · exact Or.inr ⟨l, List.mem_cons_of_mem a hl, heq⟩
      · rintro ⟨l, hl, hle⟩
        rcases List.mem_cons.mp hl with rfl | hl'
        · exact absurd hle hc
        · exact hmain.2.2.2.2.2 ⟨l, hl', hle⟩

theorem bestLoop_all_below (s : MatchingSettings) (idx : ℕ)
    (instr : DockerInstruction) (layers : List Layer)
    (h : ∀ l ∈ layers, compute_command_similarity s instr.content
      l.created_by < s.layer_matching.partial_match_threshold) :
    bestLoop s idx instr layers =
      (s.layer_matching.partial_match_threshold, Option.none) := by
  unfold bestLoop
  have : ∀ (rest : List Layer),
      (∀ l ∈ rest, compute_command_similarity s instr.content
        l.created_by < s.layer_matching.partial_match_threshold) →
      rest.foldl (bestStep s idx instr layers)
        (s.layer_matching.partial_match_threshold, Option.none) =
      (s.layer_matching.partial_match_threshold, Option.none) := by
    intro rest
    induction rest with
    | nil => intro _; rfl
    | cons a rest ih =>
      intro hall
      rw [List.foldl_cons]
      have hstep : bestStep s idx instr layers
          (s.layer_matching.partial_match_threshold, Option.none) a =
          (s.layer_matching.partial_match_threshold, Option.none) := by
        unfold bestStep
        rw [if_neg (not_le.mpr (hall a (List.mem_cons_self a rest)))]
      rw [hstep]
      exact ih (fun l hl => hall l (List.mem_cons_of_mem a hl))
  exact this layers h

end DockerfileMatchAnalyzer

open DockerfileMatchAnalyzer in
/-- C4: the partial-match threshold's configured default is `0.7`, and for
every instruction the aligner (a) records the instruction as unmatched with
type `"none"` when every history entry scores below the threshold, and
(b) otherwise commits a match of type other than `"none"` whose score is at
least the threshold and is the highest similarity over the history entries,
achieved by the selected layer. -/
theorem C4_threshold_commit (s : MatchingSettings) (layers : List Layer)
    (idx : ℕ) (instr : DockerInstruction) :
    settings_matching.layer_matching.partial_match_threshold = 7/10 ∧
    ((∀ l ∈ layers,
        compute_command_similarity s instr.content l.created_by <
          s.layer_matching.partial_match_threshold) →
      matchOne s layers (idx, instr) =
        ⟨instr, Option.none, 0, "none", ⟨0, 0⟩⟩) ∧
    ((∃ l ∈ layers, s.layer_matching.partial_match_threshold ≤
        compute_command_similarity s instr.content l.created_by) →
      (matchOne s layers (idx, instr)).match_type ≠ "none" ∧
      s.layer_matching.partial_match_threshold ≤
        (matchOne s layers (idx, instr)).match_score ∧
      (matchOne s layers (idx, instr)).dockerfile_instruction = instr ∧
      (∀ l ∈ layers,
        compute_command_similarity s instr.content l.created_by ≤
          (matchOne s layers (idx, instr)).match_score) ∧
      ∃ l ∈ layers, (matchOne s layers (idx, instr)).layer_info = some l ∧
        compute_command_similarity s instr.content l.created_by =
          (matchOne s layers (idx, instr)).match_score) := by
  refine ⟨rfl, ?_, ?_⟩
  · intro hall
    unfold matchOne
    rw [show (bestLoop s idx instr layers).2 = Option.none by
      rw [bestLoop_all_below s idx instr layers hall]]
  · intro hex
    have hmain := bestLoop_main s idx instr layers layers
      (s.layer_matching.partial_match_threshold, Option.none)
      (fun l hl => hl)
      ⟨fun _ => rfl, fun m hm => absurd hm (by simp)⟩
    have hne : (bestLoop s idx instr layers).2 ≠ Option.none :=
      hmain.2.2.2.2.2 hex
    cases hbl : (bestLoop s idx instr layers).2 with
    | none => exact absurd hbl hne
    | some m =>
      have hone : matchOne s layers (idx, instr) = m := by
        unfold matchOne
        rw [hbl]
      have hprops := hmain.1.2 m hbl
      rw [hone]
      refine ⟨hprops.2.2.1, ?_, hprops.2.2.2.1, ?_, ?_⟩
      · rw [hprops.1]
        exact loopPost_threshold_le hmain.1
      · intro l hl
        rw [hprops.1]
        exact hmain.2.2.1 l hl
      · obtain ⟨l, hl, hinfo, hsim⟩ := hprops.2.2.2.2
        exact ⟨l, hl, hinfo, by rw [hsim, hprops.1]⟩

/-- C4 counterexample: the claim's "configured default value is 0.5" is
false — `config.py` gives `partial_match_threshold` the default `0.7`. -/
theorem C4_counterexample :
    settings_matching.layer_matching.partial_match_threshold ≠ 1/2 ∧
    settings_matching.layer_matching.partial_match_threshold = 7/10 :=
  ⟨by with_unfolding_all decide, rfl⟩

def layerRUN : Layer :=
  ⟨"sha256:l1", 0, "RUN apt-get install nginx", 0, CommandType.RUN, []⟩

open DockerfileMatchAnalyzer in
/-- Witness for C4: with one history entry matching the `RUN` instruction
verbatim, the committed match is typed and scored at least the threshold. -/
theorem C4_threshold_commit_witness :
    (matchOne settings_matching [layerRUN] (0, instrRUN)).match_type ≠
        "none" ∧
      settings_matching.layer_matching.partial_match_threshold ≤
        (matchOne settings_matching [layerRUN] (0, instrRUN)).match_score :=
  have h := (C4_threshold_commit settings_matching [layerRUN] 0 instrRUN).2.2
    ⟨layerRUN, by simp, by with_unfolding_all decide⟩
  ⟨h.1, h.2.1⟩

/-! ### Claim C1: score bounds under the default configuration -/

theorem unitDiv {a b : ℚ} (h0 : 0 ≤ a) (hab : a ≤ b) :
    0 ≤ a / b ∧ a / b ≤ 1 := by
  rcases lt_or_le 0 b with hb | hb
  · exact ⟨div_nonneg h0 hb.le, (div_le_one hb).mpr hab⟩
  · have hb0 : b = 0 := le_antisymm hb (le_trans h0 hab)
    subst hb0
    rw [div_zero]
    norm_num

theorem meanUnit (l : List ℚ) (h : ∀ x ∈ l, 0 ≤ x ∧ x ≤ 1) :
    0 ≤ l.sum / (l.length : ℚ) ∧ l.sum / (l.length : ℚ) ≤ 1 := by
  have h0 : 0 ≤ l.sum := List.sum_nonneg (fun x hx => (h x hx).1)
  have h1 : l.sum ≤ (l.length : ℚ) := by
    have := List.sum_le_card_nsmul l 1 (fun x hx => (h x hx).2)
    simpa [nsmul_eq_mul] using this
  exact unitDiv h0 h1

theorem maxUnit {b w : ℚ} (hb : 0 ≤ b ∧ b ≤ 1) (hw : 0 ≤ w ∧ w ≤ 1) :
    0 ≤ max b w ∧ max b w ≤ 1 :=
  ⟨le_max_of_le_left hb.1, max_le hb.2 hw.2⟩

namespace DockerfileMatchAnalyzer

theorem weightUnit (name : String) :
    0 ≤ commandTypeWeight settings_matching.command_type_weights name ∧
      commandTypeWeight settings_matching.command_type_weights name ≤ 1 := by
  unfold commandTypeWeight settings_matching
  dsimp only
  split_ifs <;> norm_num

theorem simUnit (cmd1 cmd2 : String) :
    0 ≤ compute_command_similarity settings_matching cmd1 cmd2 ∧
      compute_command_similarity settings_matching cmd1 cmd2 ≤ 1 := by
  unfold compute_command_similarity
  dsimp only
  set t1 := (pySplitWs (normalize_command cmd1)).toFinset with ht1
  set t2 := (pySplitWs (normalize_command cmd2)).toFinset with ht2
  have hsub : t1 ∩ t2 ⊆ t1 ∪ t2 :=
    Finset.inter_subset_left.trans Finset.subset_union_left
  have hcard : (((t1 ∩ t2).card : ℚ)) ≤ ((t1 ∪ t2).card : ℚ) := by
    exact_mod_cast Finset.card_le_card hsub
  have hdiv := unitDiv (a := ((t1 ∩ t2).card : ℚ))
    (b := ((t1 ∪ t2).card : ℚ)) (by positivity) hcard
  split_ifs with h h2
  · norm_num
  · have hw := weightUnit ((pySplitWs (normalize_command cmd1)).headD "")
    exact ⟨mul_nonneg hdiv.1 hw.1, mul_le_one₀ hdiv.2 hw.1 hw.2⟩
  · have hw := weightUnit "OTHER"
    exact ⟨mul_nonneg hdiv.1 hw.1, mul_le_one₀ hdiv.2 hw.1 hw.2⟩

theorem baseUnit (dockerfile_base : String) (image_base : Option String) :
    0 ≤ match_base_image dockerfile_base image_base ∧
      match_base_image dockerfile_base image_base ≤ 1 := by
  unfold match_base_image
  dsimp only
  split_ifs <;> norm_num

theorem matchOneScoreUnit (layers : List Layer)
    (p : ℕ × DockerInstruction) :
    0 ≤ (matchOne settings_matching layers p).match_score ∧
      (matchOne settings_matching layers p).match_score ≤ 1 := by
  unfold matchOne
  cases hbl : (bestLoop settings_matching p.1 p.2 layers).2 with
  | none => norm_num
  | some m =>
    have hmain := bestLoop_main settings_matching p.1 p.2 layers layers
      (settings_matching.layer_matching.partial_match_threshold,
        Option.none)
      (fun l hl => hl)
      ⟨fun _ => rfl, fun m' hm' => absurd hm' (by simp)⟩
    have hprops := hmain.1.2 m hbl
    rcases hmain.2.2.2.1 with heq | ⟨l, _, heq⟩
    · rw [hprops.1]
      have hfold :
          (layers.foldl (bestStep settings_matching p.1 p.2 layers)
            (settings_matching.layer_matching.partial_match_threshold,
              Option.none)).1 =
          settings_matching.layer_matching.partial_match_threshold := heq
      rw [hfold]
      constructor <;> norm_num [settings_matching]
    · rw [hprops.1, heq]
      exact simUnit p.2.content l.created_by

theorem layerScoreUnit (ms : List LayerMatch)
    (h : ∀ m ∈ ms, 0 ≤ m.match_score ∧ m.match_score ≤ 1) :
    0 ≤ compute_layer_score settings_matching ms ∧
      compute_layer_score settings_matching ms ≤ 1 := by
  unfold compute_layer_score
  split_ifs with hnil
  · norm_num
  · have hall : ∀ x ∈ ms.enum.map
        (fun p =>
          p.2.match_score *
              settings_matching.layer_matching.command_weight +
            (1 - (p.1 : ℚ) / (ms.length : ℚ)) *
              settings_matching.layer_matching.sequence_weight),
        0 ≤ x ∧ x ≤ 1 := by
      intro x hx
      obtain ⟨p, hp, rfl⟩ := List.mem_map.mp hx
      have hmem := List.mem_enumFrom hp
      have hidx : p.1 < ms.length := by simpa using hmem.2.1
      have hm : p.2 ∈ ms := by
        have h22 := hmem.2.2
        simp only [Nat.sub_zero] at h22
        rw [h22]
        exact List.getElem_mem _
      have hms := h p.2 hm
      have hq := unitDiv (a := (p.1 : ℚ)) (b := (ms.length : ℚ))
        (by positivity) (by exact_mod_cast hidx.le)
      have hcw : settings_matching.layer_matching.command_weight = 7/10 :=
        rfl
      have hsw : settings_matching.layer_matching.sequence_weight = 3/10 :=
        rfl
      rw [hcw, hsw]
      constructor
      · have h1 : 0 ≤ p.2.match_score * (7/10) := by
          apply mul_nonneg hms.1
          norm_num
        have h2 : 0 ≤ (1 - (p.1 : ℚ) / (ms.length : ℚ)) * (3/10) := by
          apply mul_nonneg
          · linarith [hq.2]
          · norm_num
        linarith
      · have h1 : p.2.match_score * (7/10) ≤ 7/10 := by
          nlinarith [hms.2]
        have h2 : (1 - (p.1 : ℚ) / (ms.length : ℚ)) * (3/10) ≤ 3/10 := by
          nlinarith [hq.1]
        linarith
    have hres := meanUnit _ hall
    rw [List.length_map, List.enum_length] at hres
    exact hres

/-- `|s ∩ t| / max |s| |t|` lies in `[0, 1]`. -/
theorem interMaxUnit {α : Type} [DecidableEq α] (s t : Finset α) :
    0 ≤ (((s ∩ t).card : ℚ) / (max s.card t.card : ℚ)) ∧
      (((s ∩ t).card : ℚ) / (max s.card t.card : ℚ)) ≤ 1 := by
  apply unitDiv (by positivity)
  have h1 : (s ∩ t).card ≤ s.card :=
    Finset.card_le_card Finset.inter_subset_left
  have h2 : s.card ≤ max s.card t.card := le_max_left _ _
  exact_mod_cast h1.trans h2

/-- The mean of mapped values in `[0, 1]` lies in `[0, 1]`. -/
theorem mapMeanUnit {α : Type} (l : List α) (f : α → ℚ)
    (h : ∀ a ∈ l, 0 ≤ f a ∧ f a ≤ 1) :
    0 ≤ (l.map f).sum / (l.length : ℚ) ∧
      (l.map f).sum / (l.length : ℚ) ≤ 1 := by
  have hmem : ∀ x ∈ l.map f, 0 ≤ x ∧ x ≤ 1 := by
    intro x hx
    obtain ⟨a, ha, rfl⟩ := List.mem_map.mp hx
    exact h a ha
  have hres := meanUnit (l.map f) hmem
  rw [List.length_map] at hres
  exact hres

/-- When `_match_labels` returns at all, it returns `0.0`. -/
theorem matchLabelsOk {dl il : List (String × String)} {q : ℚ}
    (h : match_labels dl il = Except.ok q) : q = 0 := by
  unfold match_labels at h
  split_ifs at h
  · exact (Except.ok.inj h).symm
  · exact (Except.ok.inj h).symm

/-- `_match_ports` returns a score in `[0, 1]`. -/
theorem matchPortsUnit (instructions : List DockerInstruction)
    (image_ports : List String) :
    0 ≤ match_ports instructions image_ports ∧
      match_ports instructions image_ports ≤ 1 := by
  unfold match_ports
  dsimp only
  split_ifs with h1 h2
  · norm_num
  · norm_num
  · exact interMaxUnit _ _

/-- When `_match_volumes` returns a score, it lies in `[0, 1]`. -/
theorem matchVolumesOkUnit {instructions : List DockerInstruction}
    {image_volumes : List String} {q : ℚ}
    (h : match_volumes instructions image_volumes = Except.ok q) :
    0 ≤ q ∧ q ≤ 1 := by
  unfold match_volumes at h
  dsimp only at h
  split_ifs at h with h1 h2 h3 h4
  · rw [← Except.ok.inj h]
    norm_num
  · rw [← Except.ok.inj h]
    norm_num
  · rw [← Except.ok.inj h]
    exact interMaxUnit _ _

/-- Every element of the label contribution to `scores` is in `[0, 1]`. -/
theorem labelScoresUnit {dockerfile : DockerfileAnalysis}
    {image : ImageInfo} {l : List ℚ}
    (h : labelScoresE settings_matching dockerfile image = Except.ok l) :
    ∀ x ∈ l, 0 ≤ x ∧ x ≤ 1 := by
  unfold labelScoresE at h
  split_ifs at h with h1
  · cases hml : match_labels dockerfile.metadata image.config.labels with
    | error e =>
      rw [hml] at h
      exact Except.noConfusion h
    | ok q =>
      rw [hml] at h
      simp only [Except.map] at h
      have hq := matchLabelsOk hml
      subst hq
      rw [← Except.ok.inj h]
      intro x hx
      rw [List.mem_singleton] at hx
      subst hx
      norm_num
  · rw [← Except.ok.inj h]
    intro x hx
    simp at hx

/-- Every element of the port contribution to `scores` is in `[0, 1]`. -/
theorem portScoresUnit (dockerfile : DockerfileAnalysis)
    (image : ImageInfo) :
    ∀ x ∈ portScoresOf dockerfile image, 0 ≤ x ∧ x ≤ 1 := by
  unfold portScoresOf
  split_ifs with h1
  · intro x hx
    rw [List.mem_singleton] at hx
    subst hx
    have hp := matchPortsUnit dockerfile.all_instructions
      image.config.exposed_ports
    constructor
    · apply mul_nonneg hp.1
      norm_num
    · linarith [hp.2]
  · intro x hx
    simp at hx

/-- Every element of the volume contribution to `scores` is in `[0, 1]`. -/
theorem volumeScoresUnit {dockerfile : DockerfileAnalysis}
    {image : ImageInfo} {l : List ℚ}
    (h : volumeScoresE dockerfile image = Except.ok l) :
    ∀ x ∈ l, 0 ≤ x ∧ x ≤ 1 := by
  unfold volumeScoresE at h
  split_ifs at h with h1
  · cases hmv : match_volumes dockerfile.all_instructions
        image.config.volumes with
    | error e =>
      rw [hmv] at h
      exact Except.noConfusion h
    | ok q =>
      rw [hmv] at h
      simp only [Except.map] at h
      rw [← Except.ok.inj h]
      intro x hx
      rw [List.mem_singleton] at hx
      subst hx
      have hq := matchVolumesOkUnit hmv
      constructor
      · apply mul_nonneg hq.1
        norm_num
      · linarith [hq.2]
  · rw [← Except.ok.inj h]
    intro x hx
    simp at hx

/-- When `_match_metadata` returns, its score lies in `[0, 1]`. -/
theorem matchMetadataOkUnit {dockerfile : DockerfileAnalysis}
    {image : ImageInfo} {q : ℚ} {em : List (String × String)}
    {pm : List String} {vm : List JVal}
    (h : match_metadata settings_matching dockerfile image =
      Except.ok (q, em, pm, vm)) :
    0 ≤ q ∧ q ≤ 1 := by
  unfold match_metadata at h
  cases hl : labelScoresE settings_matching dockerfile image with
  | error e =>
    simp only [hl] at h
    exact Except.noConfusion h
  | ok scores1 =>
    simp only [hl] at h
    cases hv : volumeScoresE dockerfile image with
    | error e =>
      simp only [hv] at h
      exact Except.noConfusion h
    | ok volScores =>
      simp only [hv] at h
      have h2 := Except.ok.inj h
      injection h2 with hq1 h3
      rw [← hq1]
      split_ifs with hnil
      · norm_num
      · apply meanUnit
        intro x hx
        rcases List.mem_append.mp hx with hx | hx
        · rcases List.mem_append.mp hx with hx | hx
          · exact labelScoresUnit hl x hx
          · exact portScoresUnit dockerfile image x hx
        · exact volumeScoresUnit hv x hx

/-- `_compute_path_similarity` returns a score in `[0, 1]`. -/
theorem pathSimUnit (cmd1 cmd2 : String) :
    0 ≤ compute_path_similarity settings_matching cmd1 cmd2 ∧
      compute_path_similarity settings_matching cmd1 cmd2 ≤ 1 := by
  unfold compute_path_similarity
  dsimp only
  split_ifs with h
  · norm_num
  · refine mapMeanUnit (extract_paths cmd1) _ ?_
    intro p1 _
    refine foldlInv _ (fun b => 0 ≤ b ∧ b ≤ 1) ?_ (extract_paths cmd2) 0
      (by norm_num)
    intro st a hst
    dsimp only
    split_ifs with h1 h2 h3 h4
    · exact maxUnit hst (by norm_num [settings_matching])
    · exact maxUnit hst (by norm_num [settings_matching])
    · exact maxUnit hst (by norm_num [settings_matching])
    · exact maxUnit hst (by norm_num [settings_matching])
    · exact hst

/-- `_match_build_context` returns a score in `[0, 1]`. -/
theorem contextUnit (copy_commands : List DockerInstruction)
    (layer_matches : List LayerMatch) :
    0 ≤ match_build_context settings_matching copy_commands
        layer_matches ∧
      match_build_context settings_matching copy_commands
        layer_matches ≤ 1 := by
  unfold match_build_context
  split_ifs with h
  · norm_num
  · refine mapMeanUnit copy_commands _ ?_
    intro cmd _
    refine foldlInv _ (fun b => 0 ≤ b ∧ b ≤ 1) ?_ layer_matches 0
      (by norm_num)
    intro st m hst
    dsimp only
    split_ifs with h1
    · exact maxUnit hst (pathSimUnit cmd.content _)
    · exact hst

/-- Every match produced by `_match_layers_sequential` carries a score in
`[0, 1]`. -/
theorem matchSeqUnit (instructions : List DockerInstruction)
    (layers : List Layer) :
    ∀ m ∈ match_layers_sequential settings_matching instructions layers,
      0 ≤ m.match_score ∧ m.match_score ≤ 1 := by
  intro m hm
  unfold match_layers_sequential at hm
  obtain ⟨p, _, rfl⟩ := List.mem_map.mp hm
  exact matchOneScoreUnit layers p

end DockerfileMatchAnalyzer

/-- **C1.** Whenever `analyze_match` returns a report under the default
configuration, the report's `overall_score` and each facet sub-score
(base image, layer, metadata, build context) lie in `[0, 1]`. -/
theorem C1_score_bounds (dockerfile : DockerfileAnalysis)
    (image : ImageInfo) (r : DockerfileMatch)
    (h : DockerfileMatchAnalyzer.analyze_match settings_matching dockerfile
      image = Except.ok r) :
    (0 ≤ r.overall_score ∧ r.overall_score ≤ 1) ∧
      (0 ≤ r.base_image_score ∧ r.base_image_score ≤ 1) ∧
      (0 ≤ r.layer_score ∧ r.layer_score ≤ 1) ∧
      (0 ≤ r.metadata_score ∧ r.metadata_score ≤ 1) ∧
      (0 ≤ r.context_score ∧ r.context_score ≤ 1) := by
  unfold DockerfileMatchAnalyzer.analyze_match at h
  dsimp only at h
  cases hm : DockerfileMatchAnalyzer.match_metadata settings_matching
      dockerfile image with
  | error e =>
    rw [hm] at h
    exact Except.noConfusion h
  | ok t =>
    obtain ⟨q, em, pm, vm⟩ := t
    simp only [hm] at h
    have hr := Except.ok.inj h
    subst hr
    dsimp only
    have hbase := DockerfileMatchAnalyzer.baseUnit dockerfile.base_image
      image.base_image
    have hlayer := DockerfileMatchAnalyzer.layerScoreUnit
      (DockerfileMatchAnalyzer.match_layers_sequential settings_matching
        dockerfile.all_instructions image.layers)
      (DockerfileMatchAnalyzer.matchSeqUnit dockerfile.all_instructions
        image.layers)
    have hmeta := DockerfileMatchAnalyzer.matchMetadataOkUnit hm
    have hctx := DockerfileMatchAnalyzer.contextUnit
      dockerfile.copy_commands
      (DockerfileMatchAnalyzer.match_layers_sequential settings_matching
        dockerfile.all_instructions image.layers)
    refine ⟨?_, hbase, hlayer, hmeta, hctx⟩
    have hw1 : settings_matching.score_weights.base_image = 3/10 := rfl
    have hw2 : settings_matching.score_weights.layer_match = 4/10 := rfl
    have hw3 : settings_matching.score_weights.metadata = 15/100 := rfl
    have hw4 : settings_matching.score_weights.context = 15/100 := rfl
    rw [hw1, hw2, hw3, hw4]
    constructor
    · have h1 : 0 ≤ DockerfileMatchAnalyzer.match_base_image
          dockerfile.base_image image.base_image * (3/10) := by
        apply mul_nonneg hbase.1
        norm_num
      have h2 : 0 ≤ DockerfileMatchAnalyzer.compute_layer_score
          settings_matching
          (DockerfileMatchAnalyzer.match_layers_sequential settings_matching
            dockerfile.all_instructions image.layers) * (4/10) := by
        apply mul_nonneg hlayer.1
        norm_num
      have h3 : 0 ≤ q * (15/100) := by
        apply mul_nonneg hmeta.1
        norm_num
      have h4 : 0 ≤ DockerfileMatchAnalyzer.match_build_context
          settings_matching dockerfile.copy_commands
          (DockerfileMatchAnalyzer.match_layers_sequential settings_matching
            dockerfile.all_instructions image.layers) * (15/100) := by
        apply mul_nonneg hctx.1
        norm_num
      linarith
    · linarith [hbase.2, hlayer.2, hmeta.2, hctx.2]

/-- Witness for C1: `analyze_match` succeeds on the concrete example
inputs and its report's scores all lie in `[0, 1]`. -/
theorem C1_score_bounds_witness :
    (0 ≤ rEx.overall_score ∧ rEx.overall_score ≤ 1) ∧
      (0 ≤ rEx.base_image_score ∧ rEx.base_image_score ≤ 1) ∧
      (0 ≤ rEx.layer_score ∧ rEx.layer_score ≤ 1) ∧
      (0 ≤ rEx.metadata_score ∧ rEx.metadata_score ≤ 1) ∧
      (0 ≤ rEx.context_score ∧ rEx.context_score ≤ 1) :=
  C1_score_bounds dfEx imgEx rEx (by with_unfolding_all rfl)

/-! ### Claims C2, C7, C10 -/

open DockerCommandNormalizer in
/-- C2: a `sh -c` command given as an exec-form list and as a shell-form
string normalize to commands that compare equal:
`commands_equal(normalize(["sh","-c","foo"]), normalize("sh -c 'foo'"))`
is true. -/
theorem C2_exec_shell_duality :
    commands_equal (normalize (PyCmd.list ["sh", "-c", "foo"]))
      (normalize (PyCmd.str "sh -c 'foo'")) true = true := by
  decide

open DockerCommandNormalizer in
/-- C7: for every input accepted by `normalize`, if the returned
`NormalizedCommand` has `shell_command` set, then its `args` list equals
`["-c", shell_command]` (hence `args[0] = "-c"` and the space-joined
remainder of `args` equals the shell command). -/
theorem C7_shell_command_args_invariant (cmd : PyCmd) (sc : String)
    (h : (normalize cmd).shell_command = some sc) :
    (normalize cmd).args = ["-c", sc] :=
  normalizeGo_shell _ cmd sc h

open DockerCommandNormalizer in
/-- Witness for C7 at the concrete input `"sh -c 'foo'"`. -/
theorem C7_shell_command_args_invariant_witness :
    (normalize (PyCmd.str "sh -c 'foo'")).shell_command = some "foo" ∧
      (normalize (PyCmd.str "sh -c 'foo'")).args = ["-c", "foo"] :=
  ⟨by decide,
    C7_shell_command_args_invariant (PyCmd.str "sh -c 'foo'") "foo" (by decide)⟩

open DockerCommandNormalizer in
/-- C10: command equality is symmetric: for all normalized commands `a`, `b`
and every `ignore_path` flag, `commands_equal a b p = commands_equal b a p`. -/
theorem C10_commands_equal_symmetric (a b : NormalizedCommand) (p : Bool) :
    commands_equal a b p = commands_equal b a p := by
  unfold commands_equal
  by_cases h1 : a.executable = "" ∧ b.executable = ""
  · have h1' : b.executable = "" ∧ a.executable = "" := ⟨h1.2, h1.1⟩
    rw [if_pos h1, if_pos h1']
  · have h1' : ¬(b.executable = "" ∧ a.executable = "") :=
      fun h => h1 ⟨h.2, h.1⟩
    rw [if_neg h1, if_neg h1']
    by_cases h2 :
        pyStrip (if p then normalize_path a.executable else a.executable) ≠
          pyStrip (if p then normalize_path b.executable else b.executable)
    · have h2' :
          pyStrip (if p then normalize_path b.executable else b.executable) ≠
            pyStrip (if p then normalize_path a.executable
              else a.executable) := Ne.symm h2
      rw [if_pos h2, if_pos h2']
    · have h2' :
          ¬(pyStrip (if p then normalize_path b.executable
              else b.executable) ≠
            pyStrip (if p then normalize_path a.executable
              else a.executable)) := fun hn => h2 (Ne.symm hn)
      rw [if_neg h2, if_neg h2']
      by_cases h3 : optTruthy a.shell_command = true ∧
          optTruthy b.shell_command = true
      · have h3' : optTruthy b.shell_command = true ∧
            optTruthy a.shell_command = true := ⟨h3.2, h3.1⟩
        rw [if_pos h3, if_pos h3']
        have heq :
            (pyStrip (a.shell_command.getD "") =
              pyStrip (b.shell_command.getD "")) =
            (pyStrip (b.shell_command.getD "") =
              pyStrip (a.shell_command.getD "")) :=
          propext ⟨Eq.symm, Eq.symm⟩
        simp only [heq]
      · have h3' : ¬(optTruthy b.shell_command = true ∧
            optTruthy a.shell_command = true) := fun h => h3 ⟨h.2, h.1⟩
        rw [if_neg h3, if_neg h3']
        by_cases h4 : optTruthy a.shell_command = true ∨
            optTruthy b.shell_command = true
        · have h4' : optTruthy b.shell_command = true ∨
              optTruthy a.shell_command = true := Or.symm h4
          rw [if_pos h4, if_pos h4']
        · have h4' : ¬(optTruthy b.shell_command = true ∨
              optTruthy a.shell_command = true) := fun h => h4 (Or.symm h)
          rw [if_neg h4, if_neg h4']
          by_cases h5 :
              (normalize_args a.args).length ≠ (normalize_args b.args).length
          · have h5' :
                (normalize_args b.args).length ≠
                  (normalize_args a.args).length := Ne.symm h5
            rw [if_pos h5, if_pos h5']
          · have h5' :
                ¬((normalize_args b.args).length ≠
                  (normalize_args a.args).length) :=
              fun hn => h5 (Ne.symm hn)
            rw [if_neg h5, if_neg h5']
            exact zip_all_eq_comm _ _

end DockerTracer
